import Mathlib

/-!
# Verification of the Bhabhi/Thulla trick-taking engine

Shallow embedding of the game engine in `bhabhi_game.py`.  Pure rendering,
sound, geometry, and real-time fields (`warning_time`, `trick_display_time`,
`last_action_time`, the pygame surfaces, the `MovingCard` animation geometry)
are outside the embedding; the `animating` flag and the deferred
`resolve_after_animation` value, which gate the engine itself, are kept.
Machine-level behaviour is modelled as follows: Python list indexing with an
index that is out of range raises `IndexError`; fallible operations therefore
return `Option`, with `none` standing for the raised exception.  Indices are
natural numbers (every index the program itself produces is non-negative).
`random.shuffle` is modelled as the identity permutation (only the multiset
of cards matters to the engine) and `random`-based fallbacks are taken as
parameters where they occur.
-/

/-- The four suits, in the order of the source's `SUITS` list
`['♠', '♥', '♦', '♣']`. -/
inductive Suit where
  | spades | hearts | diamonds | clubs
deriving DecidableEq, Repr

/-- `SUITS.index`, used by `Player.sort_hand`. -/
def suitIndex : Suit → Nat
  | .spades => 0
  | .hearts => 1
  | .diamonds => 2
  | .clubs => 3

/-- A card.  The source stores the rank string and its derived numeric
`value` (`RANK_VALUE`: '2' ↦ 2 … 'A' ↦ 14); since the mapping is a bijection
we keep only the numeric `value`.  The source's test `card.rank == 'A'` is
`card.value = 14` here. -/
structure Card where
  value : Nat
  suit : Suit
deriving DecidableEq, Repr

/-- The Ace of Spades test `c.rank == 'A' and c.suit == '♠'`. -/
def Card.isAceOfSpades (c : Card) : Bool :=
  c.value == 14 && c.suit == Suit.spades

/-- A seat (`Player` in the source).  `is_human` only routes input and picks
animation start coordinates, so it is not part of the engine model. -/
structure Player where
  name : String
  hand : List Card
  is_active : Bool
  finished_rank : Option Nat
  just_picked_up : Bool
  avoid_suit : Option Suit
deriving DecidableEq, Repr

/-- `Player.card_count`. -/
def Player.card_count (p : Player) : Nat := p.hand.length

/-- `Player.has_suit`. -/
def Player.has_suit (p : Player) (s : Suit) : Bool :=
  p.hand.any (fun c => c.suit == s)

/-- Sort key of `Player.sort_hand`: the tuple `(SUITS.index(c.suit), c.value)`
compared lexicographically, encoded as a single natural number (card values
are at most 14, so the encoding is order-faithful on real cards). -/
def sortKey (c : Card) : Nat := suitIndex c.suit * 15 + c.value

/-- `Player.sort_hand` (an ascending stable sort by `sortKey`). -/
def Player.sort_hand (p : Player) : Player :=
  { p with hand := p.hand.insertionSort (fun a b => sortKey a ≤ sortKey b) }

/-- `Player.play_card`: `self.hand.pop(card_index)`; `none` is the
`IndexError` raised when `card_index` is out of range. -/
def Player.play_card (p : Player) (card_index : Nat) : Option (Card × Player) :=
  match p.hand.get? card_index with
  | none => none
  | some c => some (c, { p with hand := p.hand.eraseIdx card_index })

/-- `Player.pick_up`: extend the hand with `cards` then re-sort it. -/
def Player.pick_up (p : Player) (cards : List Card) : Player :=
  Player.sort_hand { p with hand := p.hand ++ cards }

/-- The game-controller states (the source's `self.state` strings). -/
inductive GState where
  | setup | dealing | play | finished | paused | showing_trick
deriving DecidableEq, Repr

/-- The engine state: the fields of `Game.__init__`/`start_game` that the
rule engine reads or writes.  `active_index` is an `Option` because
`next_active_index` returns `None` when there are no seats. -/
structure Game where
  players : List Player
  discard_pile : List Card
  trick_cards : List (Nat × Card)
  leader_index : Nat
  active_index : Option Nat
  required_suit : Option Suit
  ranks_assigned : Nat
  finish_order : List (String × Nat)
  showing_trick : Bool
  last_played_cards : List (Nat × Card)
  pending_tochoo : Bool
  last_trick_suit : Option Suit
  paused : Bool
  first_move : Bool
  animating : Bool
  resolve_after_animation : Option Bool
  state : GState
  warning_text : String
deriving DecidableEq, Repr

/-- `Game.count_active_players`. -/
def Game.count_active_players (g : Game) : Nat :=
  (g.players.filter (fun p => p.is_active)).length

/-- Whether the seat at index `i` is active (`self.players[i].is_active`);
out-of-range reads never occur in the loop below because the index is always
reduced modulo the list length. -/
def isActiveAt (ps : List Player) (i : Nat) : Bool :=
  match ps.get? i with
  | some p => p.is_active
  | none => false

/-- The `while not self.players[i].is_active and loop_protect < n` loop of
`next_active_index`; `fuel` is `n - loop_protect`. -/
def nextActiveLoop (ps : List Player) : Nat → Nat → Nat
  | i, 0 => i
  | i, fuel + 1 =>
    if isActiveAt ps i then i
    else nextActiveLoop ps ((i + 1) % ps.length) fuel

/-- `next_active_index` at the level of the seat list: `None` when there are
no seats, otherwise the first active seat strictly after `current` in cyclic
order (or the index reached when the loop protection runs out). -/
def nextActiveIdx (ps : List Player) (current : Nat) : Option Nat :=
  if ps.length = 0 then none
  else some (nextActiveLoop ps ((current + 1) % ps.length) ps.length)

/-- `Game.next_active_index`. -/
def Game.next_active_index (g : Game) (current : Nat) : Option Nat :=
  nextActiveIdx g.players current

/-- The rank-assignment sweep shared by `check_game_end` and
`actually_resolve_trick` (both walk `self.players` in order, assign
`ranks_assigned + 1` to every seat satisfying their condition, deactivate it
and append to `finish_order`); `cond` is the respective guard. -/
def assignRanksBy (cond : Player → Bool) :
    List Player → Nat → List (String × Nat) → List Player × Nat × List (String × Nat)
  | [], ra, fo => ([], ra, fo)
  | p :: rest, ra, fo =>
    if cond p then
      let ra1 := ra + 1
      let p1 := { p with finished_rank := some ra1, is_active := false }
      let r := assignRanksBy cond rest ra1 (fo ++ [(p.name, ra1)])
      (p1 :: r.1, r.2)
    else
      let r := assignRanksBy cond rest ra fo
      (p :: r.1, r.2)

/-- `Game.check_game_end`: with at most one seat left active, rank and
deactivate every active unranked seat and finish the game. -/
def Game.check_game_end (g : Game) : Game :=
  if (g.players.filter (fun p => p.is_active)).length ≤ 1 then
    let r := assignRanksBy (fun p => p.is_active && p.finished_rank.isNone)
      g.players g.ranks_assigned g.finish_order
    { g with players := r.1, ranks_assigned := r.2.1, finish_order := r.2.2,
             state := .finished }
  else g

/-- `Game.resolve_trick`: the trigger half of the two-phase resolution
(`trick_display_time` is real time and not modelled). -/
def Game.resolve_trick (g : Game) (tochoo_occurred : Bool) : Game :=
  if g.trick_cards = [] then g
  else
    { g with last_trick_suit := g.required_suit,
             showing_trick := true,
             last_played_cards := g.trick_cards,
             pending_tochoo := tochoo_occurred,
             state := .showing_trick }

/-- Python's `max(list, key=lambda t: t[1].value)` on a nonempty list:
left fold keeping the first maximal element. -/
def maxPair (x : Nat × Card) (xs : List (Nat × Card)) : Nat × Card :=
  xs.foldl (fun acc y => if y.2.value > acc.2.value then y else acc) x

/-- The common tail of `actually_resolve_trick` after the pickup/discard
branch: clear the trick and the required suit, rank newly emptied active
seats (`if p.is_active and len(p.hand) == 0`), check game end, drop the
presentation state and, unless finished, return to play. -/
def resolveFinish (g1 : Game) : Game :=
  let g2 := { g1 with trick_cards := [], required_suit := none }
  let r := assignRanksBy (fun p => p.is_active && p.hand.isEmpty)
    g2.players g2.ranks_assigned g2.finish_order
  let g3 := { g2 with players := r.1, ranks_assigned := r.2.1, finish_order := r.2.2 }
  let g4 := g3.check_game_end
  let g5 := { g4 with showing_trick := false, last_played_cards := [],
                      pending_tochoo := false, last_trick_suit := none }
  if g5.state ≠ GState.finished then { g5 with state := .play } else g5

/-- `Game.actually_resolve_trick` (the commit half).  The sound effect is
dropped; `random.shuffle(pickup_cards)` is modelled as the identity
permutation; `none` is the `IndexError` raised if the pickup seat index were
out of range. -/
def Game.actually_resolve_trick (g : Game) (tochooArg : Option Bool) : Option Game :=
  let tochoo_occurred := tochooArg.getD g.pending_tochoo
  let suited := g.trick_cards.filter (fun pc => g.required_suit == some pc.2.suit)
  let pickOrWin : Nat :=
    match suited with
    | [] => g.leader_index
    | x :: xs => (maxPair x xs).1
  let step1 : Option Game :=
    if tochoo_occurred then
      match g.players.get? pickOrWin with
      | none => none
      | some pp =>
        let pp1 := Player.pick_up pp (g.trick_cards.map (fun pc => pc.2))
        let pp2 := { pp1 with just_picked_up := true, avoid_suit := g.last_trick_suit }
        some { g with players := g.players.set pickOrWin pp2,
                      leader_index := pickOrWin,
                      active_index := some pickOrWin }
    else
      some { g with discard_pile := g.discard_pile ++ g.trick_cards.map (fun pc => pc.2),
                    leader_index := pickOrWin,
                    active_index := some pickOrWin }
  match step1 with
  | none => none
  | some g1 => some (resolveFinish g1)

/-- `Game.is_card_playable`.  `none` is the `IndexError` raised when
`player_idx` or `card_index` is out of range at the respective list access
(`p.hand[card_index]` is evaluated before the `has_req` branch). -/
def Game.is_card_playable (g : Game) (player_idx card_index : Nat) : Option Bool :=
  match g.players.get? player_idx with
  | none => none
  | some p =>
    if p.is_active = false then some false
    else
      match g.required_suit with
      | none =>
        if g.first_move && (g.active_index == some player_idx) then
          match p.hand.get? card_index with
          | none => none
          | some card => some card.isAceOfSpades
        else some true
      | some rs =>
        let has_req := p.has_suit rs
        match p.hand.get? card_index with
        | none => none
        | some card =>
          if has_req then some (card.suit == rs) else some true

/-- `Game.playable_indices_for_player` (only in-range indices are probed, so
the `IndexError` case of `is_card_playable` cannot fire here). -/
def Game.playable_indices_for_player (g : Game) (player_idx : Nat) : List Nat :=
  match g.players.get? player_idx with
  | none => []
  | some p =>
    (List.range p.hand.length).filter
      (fun i => g.is_card_playable player_idx i == some true)

/-- The value of the card at index `i` of `hand` (the `key=lambda i:
p.hand[i].value` of the CPU policy; every index fed to it is in range). -/
def valAt (hand : List Card) (i : Nat) : Nat :=
  match hand.get? i with
  | some c => c.value
  | none => 0

/-- Python's `min(x :: xs, key=key)`: left fold keeping the first minimal
element. -/
def pyMinIdx (key : Nat → Nat) (x : Nat) (xs : List Nat) : Nat :=
  xs.foldl (fun acc y => if key y < key acc then y else acc) x

/-- Python's `max(x :: xs, key=key)`: left fold keeping the first maximal
element. -/
def pyMaxIdx (key : Nat → Nat) (x : Nat) (xs : List Nat) : Nat :=
  xs.foldl (fun acc y => if key y > key acc then y else acc) x

/-- The leading-branch choice of `cpu_choose_card_index` (`required_suit is
None`, after the first-move Ace check): lowest card avoiding `avoid_suit`
when one exists, else lowest overall.  The hand is nonempty at every call
site, so the `none` of the empty fold never occurs. -/
def leaderPick (hand : List Card) (avoid_suit : Option Suit) : Option Nat :=
  let base : Option Nat :=
    match List.range hand.length with
    | [] => none
    | i :: rest => some (pyMinIdx (valAt hand) i rest)
  match avoid_suit with
  | some a =>
    let non_avoid := (List.range hand.length).filter (fun i =>
      match hand.get? i with
      | some c => !(c.suit == a)
      | none => false)
    match non_avoid with
    | i :: rest => some (pyMinIdx (valAt hand) i rest)
    | [] => base
  | none => base

/-- `Game.cpu_choose_card_index`.  The outer `Option` is the `IndexError`
for an out-of-range seat; the inner `Option` is the source's `None` return
for an empty hand. -/
def Game.cpu_choose_card_index (g : Game) (player_idx : Nat) : Option (Option Nat) :=
  match g.players.get? player_idx with
  | none => none
  | some p =>
    if p.hand = [] then some none
    else
      let avoid_suit : Option Suit := if p.just_picked_up then p.avoid_suit else none
      match g.required_suit with
      | none =>
        let aceIdx := (List.range p.hand.length).find? (fun i =>
          match p.hand.get? i with
          | some c => c.isAceOfSpades
          | none => false)
        if g.first_move && (g.active_index == some player_idx) then
          match aceIdx with
          | some i => some (some i)
          | none => some (leaderPick p.hand avoid_suit)
        else some (leaderPick p.hand avoid_suit)
      | some rs =>
        let same_suit_indices := (List.range p.hand.length).filter (fun i =>
          match p.hand.get? i with
          | some c => c.suit == rs
          | none => false)
        match same_suit_indices with
        | i :: rest => some (some (pyMinIdx (valAt p.hand) i rest))
        | [] =>
          let overallMax : Option Nat :=
            match List.range p.hand.length with
            | [] => none
            | i :: rest => some (pyMaxIdx (valAt p.hand) i rest)
          match avoid_suit with
          | some a =>
            let non_avoid := (List.range p.hand.length).filter (fun i =>
              match p.hand.get? i with
              | some c => !(c.suit == a)
              | none => false)
            match non_avoid with
            | i :: rest => some (some (pyMaxIdx (valAt p.hand) i rest))
            | [] => some overallMax
          | none => some overallMax

/-- The empty-hand block of the leading branch of `attempt_play_card`
(lines `if p.card_count() == 0:` …): bump `ranks_assigned`, rank and
deactivate the seat, append to `finish_order`. -/
def finishSeat (g : Game) (i : Nat) : Game :=
  match g.players.get? i with
  | none => g
  | some p =>
    let ra := g.ranks_assigned + 1
    { g with ranks_assigned := ra,
             players :=
               g.players.set i { p with finished_rank := some ra, is_active := false },
             finish_order := g.finish_order ++ [(p.name, ra)] }

/-- The seat-list effect of the `if getattr(p, 'just_picked_up', False): …`
blocks of `attempt_play_card`: clear the pickup-avoidance memory of the seat
at index `i` (a no-op when the flag is down or the index does not exist). -/
def clearPickupAt (ps : List Player) (i : Nat) : List Player :=
  match ps.get? i with
  | none => ps
  | some p =>
    if p.just_picked_up then
      ps.set i { p with just_picked_up := false, avoid_suit := none }
    else ps

/-- The `if getattr(p, 'just_picked_up', False): …` blocks of
`attempt_play_card`: clear the pickup-avoidance memory of seat `i`. -/
def clearPickupFlag (g : Game) (i : Nat) : Game :=
  { g with players := clearPickupAt g.players i }

/-- The leading branch of `attempt_play_card` (`required_suit is None`,
after the first-move Ace check has passed): remove the card, append it to
the trick, start the animation, clear `first_move`, set the required suit,
advance the turn, handle an emptied hand, clear the pickup flag.
`p` is the seat and `card` the card at `card_index` of its hand.
(`self.first_move = False` is only executed under `if self.first_move:`,
which is the same as assigning `false` unconditionally; `last_action_time`
and the animation geometry are not modelled.) -/
def Game.leadPlay (g : Game) (player_idx : Nat) (p : Player) (card_index : Nat)
    (card : Card) : Game :=
  let p1 := { p with hand := p.hand.eraseIdx card_index }
  let g1 := { g with players := g.players.set player_idx p1,
                     trick_cards := g.trick_cards ++ [(player_idx, card)],
                     animating := true,
                     first_move := false,
                     required_suit := some card.suit }
  let g2 := { g1 with active_index := g1.next_active_index player_idx }
  let g3 := if p1.card_count = 0 then (finishSeat g2 player_idx).check_game_end else g2
  clearPickupFlag g3 player_idx

/-- The non-leading branch of `attempt_play_card` (`required_suit` set,
after the must-follow rejection has passed): remove the card, append it to
the trick, start the animation; a legitimate tochoo (off-suit play without
the required suit in hand) clears the pickup flag and schedules a tochoo
resolution; otherwise advance the turn, schedule a clean resolution when the
turn cycles back to the leader with at least as many trick cards as active
seats, and clear the pickup flag when it does not. -/
def Game.followPlay (g : Game) (player_idx : Nat) (p : Player) (card_index : Nat)
    (card : Card) (had_required : Bool) : Game :=
  let p1 := { p with hand := p.hand.eraseIdx card_index }
  let g1 := { g with players := g.players.set player_idx p1,
                     trick_cards := g.trick_cards ++ [(player_idx, card)],
                     animating := true }
  if (g.required_suit != some card.suit) && !had_required then
    let g2 := clearPickupFlag g1 player_idx
    { g2 with resolve_after_animation := some true }
  else
    let g2 := { g1 with active_index := g1.next_active_index player_idx }
    if (g2.active_index == some g2.leader_index)
        && decide (g2.trick_cards.length ≥ g2.count_active_players) then
      { g2 with resolve_after_animation := some false }
    else clearPickupFlag g2 player_idx

/-- `Game.attempt_play_card`.  `none` is the `IndexError` raised when
`self.players[player_idx]` or `p.hand[card_index]` is out of range; every
rejection returns the state unchanged except possibly `warning_text`
(timestamps are not modelled). -/
def Game.attempt_play_card (g : Game) (player_idx card_index : Nat) : Option Game :=
  if g.animating then some g
  else
    match g.players.get? player_idx with
    | none => none
    | some p =>
      if g.active_index ≠ some player_idx then some g
      else if p.is_active = false then some g
      else
        let had_required : Bool :=
          match g.required_suit with
          | some rs => p.has_suit rs
          | none => false
        match p.hand.get? card_index with
        | none => none
        | some card =>
          match g.required_suit with
          | none =>
            if g.first_move && (g.active_index == some player_idx)
                && !card.isAceOfSpades then
              some { g with warning_text := "Game must start with Ace of Spades!" }
            else some (g.leadPlay player_idx p card_index card)
          | some rs =>
            if had_required && !(card.suit == rs) then
              some { g with warning_text := "You must follow suit!" }
            else some (g.followPlay player_idx p card_index card had_required)

/-- `Game.toggle_pause` (the `pause_button.text` update is rendering). -/
def Game.toggle_pause (g : Game) : Game :=
  if g.state = GState.play ∨ g.state = GState.showing_trick then
    let paused1 := !g.paused
    let g1 := { g with paused := paused1 }
    if paused1 then { g1 with state := .paused }
    else { g1 with state := if !g1.showing_trick then .play else .showing_trick }
  else g

/-! ## Concrete states used by witnesses and counterexamples -/

/-- A freshly dealt seat: active, unranked, no pickup memory. -/
def mkP (name : String) (hand : List Card) : Player :=
  { name := name, hand := hand, is_active := true, finished_rank := none,
    just_picked_up := false, avoid_suit := none }

/-- A baseline mid-game state (no trick in progress, seat 0 to lead). -/
def baseGame : Game :=
  { players := [], discard_pile := [], trick_cards := [], leader_index := 0,
    active_index := some 0, required_suit := none, ranks_assigned := 0,
    finish_order := [], showing_trick := false, last_played_cards := [],
    pending_tochoo := false, last_trick_suit := none, paused := false,
    first_move := false, animating := false, resolve_after_animation := none,
    state := .play, warning_text := "" }

/-- Opening state of a 3-seat game: seat 0 holds the Ace of Spades and is to
make the game's first move. -/
def gFirstMove : Game :=
  { baseGame with
    players := [mkP "P1" [⟨14, .spades⟩, ⟨5, .hearts⟩],
                mkP "P2" [⟨3, .spades⟩, ⟨7, .clubs⟩],
                mkP "P3" [⟨9, .hearts⟩, ⟨2, .diamonds⟩]],
    first_move := true }

/-- A spades trick led by seat 0 and followed by seat 1, with seat 2 (who
holds no spade) to move. -/
def gMidTrick : Game :=
  { baseGame with
    players := [mkP "P1" [⟨5, .hearts⟩],
                mkP "P2" [⟨7, .clubs⟩],
                mkP "P3" [⟨9, .hearts⟩, ⟨2, .diamonds⟩]],
    trick_cards := [(0, ⟨14, .spades⟩), (1, ⟨3, .spades⟩)],
    required_suit := some .spades,
    active_index := some 2 }

/-- A pending tochoo resolution: the spades trick of `gMidTrick` after seat 2
dumped the 9♥, as captured by `resolve_trick` (trick suit remembered,
presentation hold in `showing_trick`). -/
def gTochooPending : Game :=
  { baseGame with
    players := [mkP "P1" [⟨5, .hearts⟩],
                mkP "P2" [⟨7, .clubs⟩],
                mkP "P3" [⟨2, .diamonds⟩]],
    trick_cards := [(0, ⟨14, .spades⟩), (1, ⟨3, .spades⟩), (2, ⟨9, .hearts⟩)],
    required_suit := some .spades,
    last_trick_suit := some .spades,
    pending_tochoo := true,
    showing_trick := true,
    state := .showing_trick,
    active_index := some 0 }

/-- The state reached when a leader plays their last card and is immediately
deactivated (lines `if p.card_count() == 0:` of the leading branch), after
which the remaining seats continue the trick and seat 2 throws a tochoo on
it: the inactive, empty-handed seat 0 still played the highest spade of the
trick. -/
def gInactiveLeaderTochoo : Game :=
  { baseGame with
    players := [{ mkP "P1" [] with is_active := false, finished_rank := some 1 },
                mkP "P2" [⟨7, .clubs⟩],
                mkP "P3" [⟨2, .diamonds⟩]],
    trick_cards := [(0, ⟨14, .spades⟩), (1, ⟨3, .spades⟩), (2, ⟨9, .hearts⟩)],
    required_suit := some .spades,
    last_trick_suit := some .spades,
    pending_tochoo := true,
    showing_trick := true,
    state := .showing_trick,
    ranks_assigned := 1,
    finish_order := [("P1", 1)],
    leader_index := 0,
    active_index := some 1 }

/-- A hearts trick in which seats 0 and 1 have followed and seat 2 is about
to follow with their last card, completing the trick. -/
def gLastFollow : Game :=
  { baseGame with
    players := [mkP "P1" [⟨5, .clubs⟩],
                mkP "P2" [⟨7, .clubs⟩],
                mkP "P3" [⟨13, .hearts⟩]],
    trick_cards := [(0, ⟨9, .hearts⟩), (1, ⟨3, .hearts⟩)],
    required_suit := some .hearts,
    active_index := some 2 }

/-- `gLastFollow` with seat 2 carrying pickup-avoidance memory (the shape a
state would have if a seat could follow right after picking up). -/
def gLastFollowFlagged : Game :=
  { gLastFollow with
    players := [mkP "P1" [⟨5, .clubs⟩],
                mkP "P2" [⟨7, .clubs⟩],
                { mkP "P3" [⟨13, .hearts⟩] with
                    just_picked_up := true, avoid_suit := some .clubs }] }

/-- Seat 0 is to lead a fresh trick holding a single card. -/
def gLeadLastCard : Game :=
  { baseGame with
    players := [mkP "P1" [⟨9, .hearts⟩],
                mkP "P2" [⟨7, .clubs⟩],
                mkP "P3" [⟨2, .diamonds⟩]],
    leader_index := 0,
    active_index := some 0 }

/-- A two-seat state whose trick already holds two cards while both seats
are active: seat 1's follow makes three trick cards against two active
seats, exercising the `>=` in the trick-completion test. -/
def gOverfullTrick : Game :=
  { baseGame with
    players := [mkP "P1" [⟨5, .hearts⟩],
                mkP "P2" [⟨4, .hearts⟩, ⟨7, .clubs⟩]],
    trick_cards := [(0, ⟨9, .hearts⟩), (1, ⟨2, .hearts⟩)],
    required_suit := some .hearts,
    leader_index := 0,
    active_index := some 1 }

/-! ## General lemmas about the helper functions -/

theorem get?_some_lt {α : Type} {l : List α} {i : Nat} {a : α}
    (h : l.get? i = some a) : i < l.length := by
  by_contra hn
  rw [List.get?_eq_none.mpr (Nat.le_of_not_lt hn)] at h
  exact Option.noConfusion h

theorem filter_length_set_congr {α : Type} (p : α → Bool) :
    ∀ (l : List α) (i : Nat) (a b : α), l.get? i = some a → p b = p a →
      ((l.set i b).filter p).length = (l.filter p).length := by
  intro l
  induction l with
  | nil => intro i a b h _; exact absurd h (by simp)
  | cons x xs ih =>
    intro i a b h hpb
    cases i with
    | zero =>
      simp only [List.get?] at h
      injection h with h; subst h
      simp only [List.set]
      cases hpx : p x <;> simp [List.filter_cons, hpb, hpx]
    | succ n =>
      simp only [List.get?] at h
      simp only [List.set]
      cases hpx : p x <;> simp [List.filter_cons, hpx, ih n a b h hpb]

theorem filter_length_set_decr :
    ∀ (l : List Player) (i : Nat) (a b : Player),
      l.get? i = some a → a.is_active = true → b.is_active = false →
      ((l.set i b).filter (fun p => p.is_active)).length + 1 =
        (l.filter (fun p => p.is_active)).length := by
  intro l
  induction l with
  | nil => intro i a b h _ _; exact absurd h (by simp)
  | cons x xs ih =>
    intro i a b h ha hb
    cases i with
    | zero =>
      simp only [List.get?] at h
      injection h with h; subst h
      simp [List.set, List.filter_cons, ha, hb]
    | succ n =>
      simp only [List.get?] at h
      simp only [List.set]
      cases hpx : x.is_active <;>
        simp [List.filter_cons, hpx, ih n a b h ha hb]

theorem isActiveAt_set_congr (ps : List Player) (i : Nat) (q q' : Player)
    (h : ps.get? i = some q) (hq : q'.is_active = q.is_active) (j : Nat) :
    isActiveAt (ps.set i q') j = isActiveAt ps j := by
  unfold isActiveAt
  by_cases hij : i = j
  · subst hij
    rw [List.get?_set_eq_of_lt _ (get?_some_lt h), h]
    exact hq
  · rw [List.get?_set_ne _ _ hij]

theorem nextActiveLoop_congr (ps ps' : List Player)
    (hlen : ps'.length = ps.length)
    (hact : ∀ j, isActiveAt ps' j = isActiveAt ps j) :
    ∀ (fuel i : Nat), nextActiveLoop ps' i fuel = nextActiveLoop ps i fuel := by
  intro fuel
  induction fuel with
  | zero => intro i; rfl
  | succ f ih =>
    intro i
    unfold nextActiveLoop
    rw [hact i, hlen]
    cases isActiveAt ps i <;> simp [ih]

theorem nextActiveIdx_set (ps : List Player) (i : Nat) (q q' : Player)
    (h : ps.get? i = some q) (hq : q'.is_active = q.is_active) (c : Nat) :
    nextActiveIdx (ps.set i q') c = nextActiveIdx ps c := by
  unfold nextActiveIdx
  rw [List.length_set,
    nextActiveLoop_congr ps (ps.set i q') (by simp)
      (fun j => isActiveAt_set_congr ps i q q' h hq j)]

/-! ### Python `max`/`min` folds -/

theorem maxPair_cons (x y : Nat × Card) (ys : List (Nat × Card)) :
    maxPair x (y :: ys) = maxPair (if y.2.value > x.2.value then y else x) ys := rfl

theorem maxPair_mem (x : Nat × Card) (xs : List (Nat × Card)) :
    maxPair x xs = x ∨ maxPair x xs ∈ xs := by
  induction xs generalizing x with
  | nil => left; rfl
  | cons y ys ih =>
    rw [maxPair_cons]
    rcases ih (if y.2.value > x.2.value then y else x) with h | h
    · rw [h]; split
      · right; exact List.mem_cons_self _ _
      · left; rfl
    · right; exact List.mem_cons_of_mem _ h

theorem maxPair_ge (x : Nat × Card) (xs : List (Nat × Card)) :
    ∀ z, (z = x ∨ z ∈ xs) → z.2.value ≤ (maxPair x xs).2.value := by
  induction xs generalizing x with
  | nil =>
    intro z hz
    rcases hz with rfl | h
    · exact Nat.le_refl _
    · exact absurd h (List.not_mem_nil _)
  | cons y ys ih =>
    intro z hz
    rw [maxPair_cons]
    have hx : x.2.value ≤ (if y.2.value > x.2.value then y else x).2.value := by
      split <;> omega
    have hy : y.2.value ≤ (if y.2.value > x.2.value then y else x).2.value := by
      split <;> omega
    rcases hz with rfl | hz
    · exact Nat.le_trans hx (ih _ _ (Or.inl rfl))
    · rcases List.mem_cons.mp hz with rfl | hz
      · exact Nat.le_trans hy (ih _ _ (Or.inl rfl))
      · exact ih _ z (Or.inr hz)

theorem pyMinIdx_cons (key : Nat → Nat) (x y : Nat) (ys : List Nat) :
    pyMinIdx key x (y :: ys) = pyMinIdx key (if key y < key x then y else x) ys := rfl

theorem pyMinIdx_mem (key : Nat → Nat) (x : Nat) (xs : List Nat) :
    pyMinIdx key x xs = x ∨ pyMinIdx key x xs ∈ xs := by
  induction xs generalizing x with
  | nil => left; rfl
  | cons y ys ih =>
    rw [pyMinIdx_cons]
    rcases ih (if key y < key x then y else x) with h | h
    · rw [h]; split
      · right; exact List.mem_cons_self _ _
      · left; rfl
    · right; exact List.mem_cons_of_mem _ h

theorem pyMinIdx_le (key : Nat → Nat) (x : Nat) (xs : List Nat) :
    ∀ z, (z = x ∨ z ∈ xs) → key (pyMinIdx key x xs) ≤ key z := by
  induction xs generalizing x with
  | nil =>
    intro z hz
    rcases hz with rfl | h
    · exact Nat.le_refl _
    · exact absurd h (List.not_mem_nil _)
  | cons y ys ih =>
    intro z hz
    rw [pyMinIdx_cons]
    have hacc := ih (if key y < key x then y else x) _ (Or.inl rfl)
    have hx : key (pyMinIdx key (if key y < key x then y else x) ys) ≤ key x := by
      by_cases hcmp : key y < key x
      · rw [if_pos hcmp] at hacc ⊢; omega
      · rw [if_neg hcmp] at hacc ⊢; omega
    have hy : key (pyMinIdx key (if key y < key x then y else x) ys) ≤ key y := by
      by_cases hcmp : key y < key x
      · rw [if_pos hcmp] at hacc ⊢; omega
      · rw [if_neg hcmp] at hacc ⊢; omega
    rcases hz with rfl | hz
    · exact hx
    · rcases List.mem_cons.mp hz with rfl | hz
      · exact hy
      · exact ih _ z (Or.inr hz)

theorem pyMaxIdx_cons (key : Nat → Nat) (x y : Nat) (ys : List Nat) :
    pyMaxIdx key x (y :: ys) = pyMaxIdx key (if key y > key x then y else x) ys := rfl

theorem pyMaxIdx_mem (key : Nat → Nat) (x : Nat) (xs : List Nat) :
    pyMaxIdx key x xs = x ∨ pyMaxIdx key x xs ∈ xs := by
  induction xs generalizing x with
  | nil => left; rfl
  | cons y ys ih =>
    rw [pyMaxIdx_cons]
    rcases ih (if key y > key x then y else x) with h | h
    · rw [h]; split
      · right; exact List.mem_cons_self _ _
      · left; rfl
    · right; exact List.mem_cons_of_mem _ h

theorem pyMaxIdx_ge (key : Nat → Nat) (x : Nat) (xs : List Nat) :
    ∀ z, (z = x ∨ z ∈ xs) → key z ≤ key (pyMaxIdx key x xs) := by
  induction xs generalizing x with
  | nil =>
    intro z hz
    rcases hz with rfl | h
    · exact Nat.le_refl _
    · exact absurd h (List.not_mem_nil _)
  | cons y ys ih =>
    intro z hz
    rw [pyMaxIdx_cons]
    have hacc := ih (if key y > key x then y else x) _ (Or.inl rfl)
    have hx : key x ≤ key (pyMaxIdx key (if key y > key x then y else x) ys) := by
      by_cases hcmp : key y > key x
      · rw [if_pos hcmp] at hacc ⊢; omega
      · rw [if_neg hcmp] at hacc ⊢; omega
    have hy : key y ≤ key (pyMaxIdx key (if key y > key x then y else x) ys) := by
      by_cases hcmp : key y > key x
      · rw [if_pos hcmp] at hacc ⊢; omega
      · rw [if_neg hcmp] at hacc ⊢; omega
    rcases hz with rfl | hz
    · exact hx
    · rcases List.mem_cons.mp hz with rfl | hz
      · exact hy
      · exact ih _ z (Or.inr hz)

/-! ### Rank-assignment sweeps and small helpers -/

theorem assignRanksBy_cons_pos (cond : Player → Bool) (q : Player) (qs : List Player)
    (ra : Nat) (fo : List (String × Nat)) (h : cond q = true) :
    assignRanksBy cond (q :: qs) ra fo =
      ({ q with finished_rank := some (ra + 1), is_active := false } ::
         (assignRanksBy cond qs (ra + 1) (fo ++ [(q.name, ra + 1)])).1,
       (assignRanksBy cond qs (ra + 1) (fo ++ [(q.name, ra + 1)])).2) := by
  simp [assignRanksBy, h]

theorem assignRanksBy_cons_neg (cond : Player → Bool) (q : Player) (qs : List Player)
    (ra : Nat) (fo : List (String × Nat)) (h : cond q = false) :
    assignRanksBy cond (q :: qs) ra fo =
      (q :: (assignRanksBy cond qs ra fo).1, (assignRanksBy cond qs ra fo).2) := by
  simp [assignRanksBy, h]

theorem assignRanksBy_get? (cond : Player → Bool) :
    ∀ (ps : List Player) (ra : Nat) (fo : List (String × Nat)) (i : Nat) (p : Player),
      ps.get? i = some p →
      ∃ p', (assignRanksBy cond ps ra fo).1.get? i = some p' ∧
        p'.hand = p.hand ∧ p'.name = p.name ∧
        p'.just_picked_up = p.just_picked_up ∧ p'.avoid_suit = p.avoid_suit ∧
        (cond p = false → p' = p) ∧
        (cond p = true → p'.is_active = false ∧ ∃ n, p'.finished_rank = some n) := by
  intro ps
  induction ps with
  | nil => intro ra fo i p h; exact absurd h (by simp)
  | cons q qs ih =>
    intro ra fo i p h
    cases i with
    | zero =>
      simp only [List.get?] at h
      injection h with h
      subst h
      by_cases hc : cond q
      · rw [assignRanksBy_cons_pos cond q qs ra fo hc]
        exact ⟨_, rfl, rfl, rfl, rfl, rfl,
          fun hf => absurd hc (by simp [hf]),
          fun _ => ⟨rfl, _, rfl⟩⟩
      · rw [assignRanksBy_cons_neg cond q qs ra fo (by simpa using hc)]
        exact ⟨q, rfl, rfl, rfl, rfl, rfl, fun _ => rfl,
          fun ht => absurd ht hc⟩
    | succ n =>
      simp only [List.get?] at h
      by_cases hc : cond q
      · rw [assignRanksBy_cons_pos cond q qs ra fo hc]
        exact ih (ra + 1) (fo ++ [(q.name, ra + 1)]) n p h
      · rw [assignRanksBy_cons_neg cond q qs ra fo (by simpa using hc)]
        exact ih ra fo n p h

theorem check_game_end_players_get? (g : Game) (i : Nat) (p : Player)
    (h : g.players.get? i = some p) :
    ∃ p', g.check_game_end.players.get? i = some p' ∧ p'.hand = p.hand ∧
      p'.name = p.name ∧ p'.just_picked_up = p.just_picked_up ∧
      p'.avoid_suit = p.avoid_suit := by
  unfold Game.check_game_end
  split
  · obtain ⟨p', h', h1, h2, h3, h4, _, _⟩ :=
      assignRanksBy_get? _ g.players g.ranks_assigned g.finish_order i p h
    exact ⟨p', h', h1, h2, h3, h4⟩
  · exact ⟨p, h, rfl, rfl, rfl, rfl⟩

theorem check_game_end_shape (g : Game) :
    ∃ ps ra fo st, g.check_game_end =
      { g with players := ps, ranks_assigned := ra, finish_order := fo, state := st } := by
  unfold Game.check_game_end
  split
  · exact ⟨_, _, _, _, rfl⟩
  · exact ⟨g.players, g.ranks_assigned, g.finish_order, g.state, rfl⟩

theorem check_game_end_of_two_active (g : Game)
    (h : 2 ≤ (g.players.filter (fun p => p.is_active)).length) :
    g.check_game_end = g := by
  unfold Game.check_game_end
  rw [if_neg (by omega)]

theorem check_game_end_state_of_le_one (g : Game)
    (h : (g.players.filter (fun p => p.is_active)).length ≤ 1) :
    g.check_game_end.state = GState.finished := by
  unfold Game.check_game_end
  rw [if_pos h]

theorem clearPickupFlag_shape (g : Game) (i : Nat) :
    ∃ ps, clearPickupFlag g i = { g with players := ps } :=
  ⟨clearPickupAt g.players i, rfl⟩

theorem clearPickupAt_get? (ps : List Player) (i : Nat) (p : Player)
    (h : ps.get? i = some p) :
    ∃ p', (clearPickupAt ps i).get? i = some p' ∧
      p'.hand = p.hand ∧ p'.is_active = p.is_active ∧
      p'.finished_rank = p.finished_rank ∧ p'.name = p.name ∧
      p'.just_picked_up = false ∧
      p'.avoid_suit = (if p.just_picked_up then none else p.avoid_suit) := by
  simp only [clearPickupAt, h]
  by_cases hj : p.just_picked_up = true
  · rw [if_pos hj, if_pos hj]
    exact ⟨{ p with just_picked_up := false, avoid_suit := none },
      by rw [List.get?_set_eq_of_lt _ (get?_some_lt h)], rfl, rfl, rfl, rfl, rfl, rfl⟩
  · have hjf : p.just_picked_up = false := by simpa using hj
    rw [if_neg hj, if_neg hj]
    exact ⟨p, h, rfl, rfl, rfl, rfl, hjf, rfl⟩

theorem clearPickupFlag_players_get? (g : Game) (i : Nat) (p : Player)
    (h : g.players.get? i = some p) :
    ∃ p', (clearPickupFlag g i).players.get? i = some p' ∧
      p'.hand = p.hand ∧ p'.is_active = p.is_active ∧
      p'.finished_rank = p.finished_rank ∧ p'.name = p.name ∧
      p'.just_picked_up = false ∧
      p'.avoid_suit = (if p.just_picked_up then none else p.avoid_suit) :=
  clearPickupAt_get? g.players i p h

theorem finishSeat_eq (g : Game) (i : Nat) (p : Player) (h : g.players.get? i = some p) :
    finishSeat g i =
      { g with ranks_assigned := g.ranks_assigned + 1,
               players := g.players.set i
                 { p with finished_rank := some (g.ranks_assigned + 1), is_active := false },
               finish_order := g.finish_order ++ [(p.name, g.ranks_assigned + 1)] } := by
  unfold finishSeat
  rw [h]

theorem finishSeat_shape (g : Game) (i : Nat) :
    ∃ ps ra fo, finishSeat g i =
      { g with players := ps, ranks_assigned := ra, finish_order := fo } := by
  cases h : g.players.get? i with
  | none =>
    simp only [finishSeat, h]
    exact ⟨g.players, g.ranks_assigned, g.finish_order, rfl⟩
  | some p =>
    simp only [finishSeat, h]
    exact ⟨_, _, _, rfl⟩

/-! ### Reduction of `attempt_play_card` to its branches -/

theorem attempt_accept_lead (g : Game) (i k : Nat) (p : Player) (card : Card)
    (hanim : g.animating = false) (hp : g.players.get? i = some p)
    (hturn : g.active_index = some i) (hact : p.is_active = true)
    (hk : p.hand.get? k = some card) (hreq : g.required_suit = none)
    (hfm : g.first_move = true → card.isAceOfSpades = true) :
    g.attempt_play_card i k = some (g.leadPlay i p k card) := by
  simp only [Game.attempt_play_card, hanim, hp, hturn, hact, hk, hreq]
  cases hfm' : g.first_move
  · simp
  · simp [hfm hfm']

theorem attempt_accept_follow (g : Game) (i k : Nat) (p : Player) (card : Card)
    (rs : Suit)
    (hanim : g.animating = false) (hp : g.players.get? i = some p)
    (hturn : g.active_index = some i) (hact : p.is_active = true)
    (hk : p.hand.get? k = some card) (hreq : g.required_suit = some rs)
    (hfol : p.has_suit rs = true → card.suit = rs) :
    g.attempt_play_card i k = some (g.followPlay i p k card (p.has_suit rs)) := by
  simp only [Game.attempt_play_card, hanim, hp, hturn, hact, hk, hreq]
  cases hhr : p.has_suit rs
  · simp [hhr]
  · simp [hhr, hfol hhr]

/-! ## Claim theorems -/

/-- C1: Legality evaluator contract.  For an active seat and an in-range
card index: with a required suit set and the suit in hand, exactly the
required-suit indices are playable; with the suit not in hand, every index
is playable; with no required suit on the game's first move with this seat
to move, exactly the Ace of Spades is playable; with no required suit
otherwise, every index is playable; an inactive seat never has a playable
index. -/
theorem c1_is_card_playable_contract (g : Game) (i k : Nat) (p : Player) (card : Card)
    (hp : g.players.get? i = some p) (hk : p.hand.get? k = some card) :
    (p.is_active = false → g.is_card_playable i k = some false) ∧
    (p.is_active = true →
      (∀ rs, g.required_suit = some rs → p.has_suit rs = true →
        (g.is_card_playable i k = some true ↔ card.suit = rs)) ∧
      (∀ rs, g.required_suit = some rs → p.has_suit rs = false →
        g.is_card_playable i k = some true) ∧
      (g.required_suit = none → g.first_move = true → g.active_index = some i →
        (g.is_card_playable i k = some true ↔ card.isAceOfSpades = true)) ∧
      (g.required_suit = none → ¬(g.first_move = true ∧ g.active_index = some i) →
        g.is_card_playable i k = some true)) := by
  simp only [List.get?_eq_getElem?] at hp hk
  constructor
  · intro hin
    simp [Game.is_card_playable, hp, hin]
  · intro hact
    refine ⟨?_, ?_, ?_, ?_⟩
    · intro rs hrs hhs
      simp [Game.is_card_playable, hp, hact, hrs, hk, hhs]
    · intro rs hrs hhs
      simp [Game.is_card_playable, hp, hact, hrs, hk, hhs]
    · intro hrs hfm hai
      simp [Game.is_card_playable, hp, hact, hrs, hk, hfm, hai]
    · intro hrs hnot
      rcases Bool.eq_false_or_eq_true g.first_move with hfm | hfm
      · have hai : ¬(g.active_index = some i) := fun h => hnot ⟨hfm, h⟩
        have hbeq : (g.active_index == some i) = false := beq_eq_false_iff_ne.mpr hai
        simp [Game.is_card_playable, hp, hact, hrs, hfm, hbeq]
      · simp [Game.is_card_playable, hp, hact, hrs, hfm]

/-- Witness for C1 at the opening state `gFirstMove`: the leader's Ace of
Spades (index 0) is playable and their 5♥ (index 1) is not. -/
theorem c1_witness :
    gFirstMove.is_card_playable 0 0 = some true ∧
    ¬ gFirstMove.is_card_playable 0 1 = some true := by
  constructor
  · have h := c1_is_card_playable_contract gFirstMove 0 0
      (mkP "P1" [⟨14, .spades⟩, ⟨5, .hearts⟩]) ⟨14, .spades⟩ (by decide) (by decide)
    exact ((h.2 (by decide)).2.2.1 (by decide) (by decide) (by decide)).mpr (by decide)
  · have h := c1_is_card_playable_contract gFirstMove 0 1
      (mkP "P1" [⟨14, .spades⟩, ⟨5, .hearts⟩]) ⟨5, .hearts⟩ (by decide) (by decide)
    have hiff := (h.2 (by decide)).2.2.1 (by decide) (by decide) (by decide)
    intro hcontra
    exact absurd (hiff.mp hcontra) (by decide)

/-- C10: the legality evaluator and `attempt_play_card` index the hand
without a bounds check: for an out-of-range card index of an active seat,
`is_card_playable` raises `IndexError` (modelled `none`) whenever a required
suit is set or it is the first move with this seat to move, yet reports the
index playable in the plain-leader case; `attempt_play_card` raises whenever
the index is out of range and the hold/turn/activity guards pass. -/
theorem c10_out_of_range_indexing (g : Game) (i k : Nat) (p : Player)
    (hp : g.players.get? i = some p) (hact : p.is_active = true)
    (hk : p.hand.length ≤ k) :
    ((g.required_suit ≠ none ∨ (g.first_move = true ∧ g.active_index = some i)) →
       g.is_card_playable i k = none) ∧
    (g.required_suit = none → ¬(g.first_move = true ∧ g.active_index = some i) →
       g.is_card_playable i k = some true) ∧
    (g.animating = false → g.active_index = some i →
       g.attempt_play_card i k = none) := by
  have hknone : p.hand.get? k = none := List.get?_eq_none.mpr hk
  simp only [List.get?_eq_getElem?] at hp hknone
  refine ⟨?_, ?_, ?_⟩
  · intro hcond
    cases hreq : g.required_suit with
    | some rs => simp [Game.is_card_playable, hp, hact, hreq, hknone]
    | none =>
      rcases hcond with h | ⟨hfm, hai⟩
      · exact absurd hreq h
      · simp [Game.is_card_playable, hp, hact, hreq, hknone, hfm, hai]
  · intro hreq hnot
    rcases Bool.eq_false_or_eq_true g.first_move with hfm | hfm
    · have hai : ¬(g.active_index = some i) := fun h => hnot ⟨hfm, h⟩
      have hbeq : (g.active_index == some i) = false := beq_eq_false_iff_ne.mpr hai
      simp [Game.is_card_playable, hp, hact, hreq, hfm, hbeq]
    · simp [Game.is_card_playable, hp, hact, hreq, hfm]
  · intro hanim hturn
    simp [Game.attempt_play_card, hanim, hp, hturn, hact, hknone]

/-- Witness for C10 at `gFirstMove` with index 5 (hand has 2 cards): the
evaluator and the play acceptor both raise. -/
theorem c10_witness :
    gFirstMove.is_card_playable 0 5 = none ∧
    gFirstMove.attempt_play_card 0 5 = none := by
  have h := c10_out_of_range_indexing gFirstMove 0 5
    (mkP "P1" [⟨14, .spades⟩, ⟨5, .hearts⟩]) (by decide) (by decide) (by decide)
  exact ⟨h.1 (Or.inr ⟨by decide, by decide⟩), h.2.2 (by decide) (by decide)⟩

/-- C9 (code bug): `toggle_pause` from `play` enters `paused`, but a second
call is a no-op — the guard `state in ('play','showing_trick')` fails in the
`paused` state, so pause can never be exited even though the claim (and the
game's own "Press P to resume" overlay) promise a round trip back to the
pre-pause state. -/
theorem c9_toggle_pause_cannot_resume :
    gFirstMove.state = GState.play ∧
    gFirstMove.toggle_pause.state = GState.paused ∧
    gFirstMove.toggle_pause.paused = true ∧
    gFirstMove.toggle_pause.toggle_pause = gFirstMove.toggle_pause := by decide

/-- C4 (code bug): committing the tochoo in `gInactiveLeaderTochoo` — a
state reached when the leader's last led card wins a tochoo trick after the
leading branch of `attempt_play_card` has already deactivated the seat —
adds all three trick cards to the hand of the inactive seat 0 and makes it
leader and seat-to-move, mutating a hand that the claimed invariant says is
permanently empty. -/
theorem c4_inactive_seat_gains_cards :
    ((gInactiveLeaderTochoo.players.get? 0).map
        (fun p => (p.is_active, p.card_count)) = some (false, 0)) ∧
    ((gInactiveLeaderTochoo.actually_resolve_trick (some true)).map
        (fun g => ((g.players.get? 0).map (fun p => (p.is_active, p.card_count)),
                   g.leader_index, g.active_index))
      = some (some (false, 3), 0, some 0)) := by decide

/-- C6: rejection atomicity.  A call while the animation hold is active, by
a seat other than the seat-to-move, by an inactive seat, or with a card
index the legality evaluator rejects, is a no-op on the whole game state
except possibly the warning message: hands, trick, required suit,
first-move flag, leader, seat-to-move, discard pile, ranks and activity
flags are all unchanged. -/
theorem c6_rejection_atomicity (g : Game) (i k : Nat) (p : Player)
    (hp : g.players.get? i = some p)
    (hcond : g.animating = true ∨ g.active_index ≠ some i ∨ p.is_active = false ∨
             g.is_card_playable i k = some false) :
    ∃ g', g.attempt_play_card i k = some g' ∧
      g'.players = g.players ∧ g'.trick_cards = g.trick_cards ∧
      g'.required_suit = g.required_suit ∧ g'.first_move = g.first_move ∧
      g'.leader_index = g.leader_index ∧ g'.active_index = g.active_index ∧
      g'.discard_pile = g.discard_pile ∧ g'.ranks_assigned = g.ranks_assigned ∧
      g'.finish_order = g.finish_order := by
  suffices h : ∃ w, g.attempt_play_card i k = some { g with warning_text := w } by
    obtain ⟨w, hw⟩ := h
    exact ⟨{ g with warning_text := w }, hw, rfl, rfl, rfl, rfl, rfl, rfl, rfl, rfl, rfl⟩
  simp only [List.get?_eq_getElem?] at hp
  by_cases hanim : g.animating = true
  · refine ⟨g.warning_text, ?_⟩
    have hng : g.attempt_play_card i k = some g := by
      simp [Game.attempt_play_card, hanim]
    rw [hng]
  have hanimf : g.animating = false := by simpa using hanim
  by_cases hturn : g.active_index = some i
  case neg =>
    refine ⟨g.warning_text, ?_⟩
    have hng : g.attempt_play_card i k = some g := by
      simp [Game.attempt_play_card, hanimf, hp, hturn]
    rw [hng]
  by_cases hact : p.is_active = true
  case neg =>
    have hactf : p.is_active = false := by simpa using hact
    refine ⟨g.warning_text, ?_⟩
    have hng : g.attempt_play_card i k = some g := by
      simp [Game.attempt_play_card, hanimf, hp, hturn, hactf]
    rw [hng]
  have hplay : g.is_card_playable i k = some false := by
    rcases hcond with h | h | h | h
    · exact absurd h hanim
    · exact absurd hturn h
    · rw [h] at hact; exact absurd hact (by simp)
    · exact h
  cases hreq : g.required_suit with
  | none =>
    cases hfm : g.first_move with
    | false =>
      exfalso
      simp [Game.is_card_playable, hp, hreq, hfm, hact] at hplay
    | true =>
      cases hk : p.hand[k]? with
      | none =>
        exfalso
        simp [Game.is_card_playable, hp, hreq, hfm, hact, hturn, hk] at hplay
      | some card =>
        have hace : card.isAceOfSpades = false := by
          simpa [Game.is_card_playable, hp, hreq, hfm, hact, hturn, hk] using hplay
        exact ⟨"Game must start with Ace of Spades!",
          by simp [Game.attempt_play_card, hanimf, hp, hturn, hact, hreq, hfm, hk, hace]⟩
  | some rs =>
    cases hk : p.hand[k]? with
    | none =>
      exfalso
      cases hhs : p.has_suit rs <;>
        simp [Game.is_card_playable, hp, hreq, hact, hk, hhs] at hplay
    | some card =>
      by_cases hhs : p.has_suit rs = true
      · have hsuit : (card.suit == rs) = false := by
          simpa [Game.is_card_playable, hp, hreq, hact, hk, hhs] using hplay
        exact ⟨"You must follow suit!",
          by simp [Game.attempt_play_card, hanimf, hp, hturn, hact, hreq, hk, hhs, hsuit]⟩
      · exfalso
        have hhsf : p.has_suit rs = false := by simpa using hhs
        simp [Game.is_card_playable, hp, hreq, hact, hk, hhsf] at hplay

/-- Witness for C6: in `gFirstMove`, clicking the leader's 5♥ (index 1,
failing the first-move Ace rule) is rejected without touching the state. -/
theorem c6_witness :
    ∃ g', gFirstMove.attempt_play_card 0 1 = some g' ∧
      g'.players = gFirstMove.players ∧ g'.trick_cards = gFirstMove.trick_cards ∧
      g'.required_suit = gFirstMove.required_suit ∧
      g'.first_move = gFirstMove.first_move ∧
      g'.leader_index = gFirstMove.leader_index ∧
      g'.active_index = gFirstMove.active_index ∧
      g'.discard_pile = gFirstMove.discard_pile ∧
      g'.ranks_assigned = gFirstMove.ranks_assigned ∧
      g'.finish_order = gFirstMove.finish_order :=
  c6_rejection_atomicity gFirstMove 0 1 (mkP "P1" [⟨14, .spades⟩, ⟨5, .hearts⟩])
    (by decide) (Or.inr (Or.inr (Or.inr (by decide))))

theorem clearPickupFlag_resolve (g : Game) (i : Nat) :
    (clearPickupFlag g i).resolve_after_animation = g.resolve_after_animation := by
  obtain ⟨ps, h⟩ := clearPickupFlag_shape g i
  rw [h]

theorem finishSeat_resolve (g : Game) (i : Nat) :
    (finishSeat g i).resolve_after_animation = g.resolve_after_animation := by
  obtain ⟨ps, ra, fo, h⟩ := finishSeat_shape g i
  rw [h]

theorem check_game_end_resolve (g : Game) :
    g.check_game_end.resolve_after_animation = g.resolve_after_animation := by
  obtain ⟨ps, ra, fo, st, h⟩ := check_game_end_shape g
  rw [h]

theorem leadPlay_resolve (g : Game) (i : Nat) (p : Player) (k : Nat) (card : Card) :
    (g.leadPlay i p k card).resolve_after_animation = g.resolve_after_animation := by
  simp only [Game.leadPlay]
  split
  · rw [clearPickupFlag_resolve, check_game_end_resolve, finishSeat_resolve]
  · rw [clearPickupFlag_resolve]

/-- C3 counterexample: in `gOverfullTrick` (two active seats, a trick that
already holds two cards) seat 1 follows suit with the 4♥; the code triggers
a clean resolution although the trick's card count (3) does not equal the
number of active seats (2) — the completion test is `>=`, not `==`, so the
claimed iff fails at this input. -/
theorem c3_counterexample :
    ((gOverfullTrick.attempt_play_card 1 0).map
        (fun g => (g.resolve_after_animation, g.trick_cards.length))
      = some (some false, 3)) ∧
    gOverfullTrick.count_active_players = 2 ∧
    ((gOverfullTrick.players.get? 1).map (fun p => p.has_suit Suit.hearts)
      = some true) ∧
    gOverfullTrick.required_suit = some Suit.hearts := by decide

/-- C3 (amended): an accepted play triggers trick resolution iff either
(a) the player played off-suit while holding no card of the required suit
(tochoo, `resolve_after_animation = some true`), or (b) the player
*followed* the required suit — a leading play never triggers — and, after
advancing to the next active seat, the seat-to-move equals the leader and
the trick's card count is *at least* (the source tests `>=`, not `==`) the
number of currently active seats (`resolve_after_animation = some false`). -/
theorem c3_trick_completion (g : Game) (i k : Nat) (p : Player) (card : Card)
    (hanim : g.animating = false) (hp : g.players.get? i = some p)
    (hturn : g.active_index = some i) (hact : p.is_active = true)
    (hk : p.hand.get? k = some card)
    (hres : g.resolve_after_animation = none)
    (hlegal : ∀ rs, g.required_suit = some rs → p.has_suit rs = true → card.suit = rs)
    (hlegalfm : g.required_suit = none → g.first_move = true → card.isAceOfSpades = true) :
    ∃ g', g.attempt_play_card i k = some g' ∧
      (g'.resolve_after_animation = some true ↔
        (∃ rs, g.required_suit = some rs ∧ p.has_suit rs = false ∧ card.suit ≠ rs)) ∧
      (g'.resolve_after_animation = some false ↔
        (∃ rs, g.required_suit = some rs ∧ card.suit = rs ∧
           g.next_active_index i = some g.leader_index ∧
           g.count_active_players ≤ g.trick_cards.length + 1)) := by
  cases hreq : g.required_suit with
  | none =>
    have hacc := attempt_accept_lead g i k p card hanim hp hturn hact hk hreq
      (hlegalfm hreq)
    refine ⟨_, hacc, ?_, ?_⟩
    · rw [leadPlay_resolve, hres]
      constructor
      · intro h; exact absurd h (by simp)
      · rintro ⟨rs, hrs, -, -⟩; exact absurd hrs (by simp)
    · rw [leadPlay_resolve, hres]
      constructor
      · intro h; exact absurd h (by simp)
      · rintro ⟨rs, hrs, -, -⟩; exact absurd hrs (by simp)
  | some rs =>
    have hfol : p.has_suit rs = true → card.suit = rs := hlegal rs hreq
    have hacc := attempt_accept_follow g i k p card rs hanim hp hturn hact hk hreq hfol
    by_cases hsuit : card.suit = rs
    · -- followed the suit
      have hne : (g.required_suit != some card.suit) = false := by
        rw [hreq, hsuit]
        simp
      have hvalAux : ∀ b : Bool,
          ((nextActiveIdx g.players i == some g.leader_index)
            && decide (g.trick_cards.length + 1 ≥
                 (g.players.filter (fun q : Player => q.is_active)).length)) = b →
          (g.followPlay i p k card (p.has_suit rs)).resolve_after_animation =
            (bif b then some false else none) := by
        intro b hB
        simp only [Game.followPlay]
        rw [if_neg (by simp [hne])]
        simp only [Game.next_active_index, Game.count_active_players,
          List.length_append, List.length_singleton]
        rw [nextActiveIdx_set g.players i p { p with hand := p.hand.eraseIdx k } hp rfl,
          filter_length_set_congr (fun q : Player => q.is_active) g.players i p
            { p with hand := p.hand.eraseIdx k } hp rfl, hB]
        cases b
        · rw [if_neg (by simp), clearPickupFlag_resolve]
          exact hres
        · rw [if_pos rfl]
          rfl
      cases hB : (nextActiveIdx g.players i == some g.leader_index)
          && decide (g.trick_cards.length + 1 ≥
               (g.players.filter (fun q : Player => q.is_active)).length) with
      | false =>
        have hv := hvalAux false hB
        refine ⟨_, hacc, ?_, ?_⟩
        · rw [hv]
          constructor
          · intro h; exact absurd h (by simp)
          · rintro ⟨rs', hrs', hhs', hne'⟩
            injection hrs' with hrs''
            subst hrs''
            exact absurd hsuit hne'
        · rw [hv]
          constructor
          · intro h; exact absurd h (by simp)
          · rintro ⟨rs', hrs', -, hnext, hcount⟩
            exfalso
            have hC : ((nextActiveIdx g.players i == some g.leader_index)
                && decide (g.trick_cards.length + 1 ≥
                     (g.players.filter (fun q : Player => q.is_active)).length)) = true :=
              Bool.and_eq_true_iff.mpr ⟨beq_iff_eq.mpr hnext, decide_eq_true hcount⟩
            rw [hB] at hC
            exact absurd hC (by simp)
      | true =>
        have hv := hvalAux true hB
        obtain ⟨hC1, hC2⟩ := Bool.and_eq_true_iff.mp hB
        refine ⟨_, hacc, ?_, ?_⟩
        · rw [hv]
          constructor
          · intro h; exact absurd h (by simp)
          · rintro ⟨rs', hrs', hhs', hne'⟩
            injection hrs' with hrs''
            subst hrs''
            exact absurd hsuit hne'
        · rw [hv]
          constructor
          · intro _
            exact ⟨rs, rfl, hsuit, beq_iff_eq.mp hC1, of_decide_eq_true hC2⟩
          · intro _
            rfl
    · -- tochoo: could not follow
      have hhs : p.has_suit rs = false := by
        cases h : p.has_suit rs
        · rfl
        · exact absurd (hfol h) hsuit
      have hne : (g.required_suit != some card.suit) = true := by
        rw [hreq]
        exact bne_iff_ne.mpr (fun h => hsuit (Option.some.inj h).symm)
      have hval : (g.followPlay i p k card (p.has_suit rs)).resolve_after_animation
          = some true := by
        simp only [Game.followPlay]
        rw [if_pos (by simp [hne, hhs])]
      refine ⟨_, hacc, ?_, ?_⟩
      · rw [hval]
        constructor
        · intro _
          exact ⟨rs, rfl, hhs, hsuit⟩
        · intro _
          rfl
      · rw [hval]
        constructor
        · intro h; exact absurd h (by simp)
        · rintro ⟨rs', hrs', hsuit', -, -⟩
          injection hrs' with hrs''
          subst hrs''
          exact absurd hsuit' hsuit

theorem check_game_end_players_get?_of_inactive (g : Game) (i : Nat) (p : Player)
    (h : g.players.get? i = some p) (hin : p.is_active = false) :
    g.check_game_end.players.get? i = some p := by
  unfold Game.check_game_end
  split
  · obtain ⟨p', h', _, _, _, _, hfalse, _⟩ :=
      assignRanksBy_get? (fun q => q.is_active && q.finished_rank.isNone)
        g.players g.ranks_assigned g.finish_order i p h
    rw [h', hfalse (by simp [hin])]
  · exact h

/-- C5 counterexample: in `gLastFollow` seat 2's follow with their last card
(the K♥ on a hearts trick) empties their hand and completes the trick, yet
within the same call the seat stays active with no rank and the finish order
stays empty — the empty-hand block exists only in the leading branch of
`attempt_play_card`, so the claim fails for following plays. -/
theorem c5_counterexample :
    ((gLastFollow.attempt_play_card 2 0).map
        (fun g => (g.players.get? 2).map
            (fun p => (p.hand.length, p.is_active, p.finished_rank)))
      = some (some (0, true, none))) ∧
    ((gLastFollow.attempt_play_card 2 0).map (fun g => g.ranks_assigned)
      = some 0) ∧
    ((gLastFollow.attempt_play_card 2 0).map (fun g => g.finish_order)
      = some []) ∧
    ((gLastFollow.attempt_play_card 2 0).map (fun g => g.resolve_after_animation)
      = some (some false)) := by decide

/-- C5 (amended): immediate rank assignment applies to leading plays only.
An accepted *leading* play that removes the seat's last card assigns, within
the same call, rank `ranks_assigned + 1` to the seat, deactivates it and
appends it to the finish order exactly once (with at least two other active
seats the counter and order grow by exactly that entry and the controller
state is untouched), and game end is checked (with at most one other active
seat the state becomes `finished`).  An accepted *following* play that
empties the hand leaves activity, rank, the rank counter and the finish
order unchanged within the call — the rank is assigned only by the later
resolution commit.  An inactive seat's `attempt_play_card` is always a
no-op, so a deactivated seat never plays again. -/
theorem c5_rank_on_empty (g : Game) (i k : Nat) (p : Player) (card : Card)
    (hanim : g.animating = false) (hp : g.players.get? i = some p)
    (hturn : g.active_index = some i) (hact : p.is_active = true)
    (hk : p.hand.get? k = some card) (hlen : p.hand.length = 1) :
    (g.required_suit = none → (g.first_move = true → card.isAceOfSpades = true) →
      ∃ g', g.attempt_play_card i k = some g' ∧
        (∃ p', g'.players.get? i = some p' ∧ p'.hand = [] ∧
          p'.is_active = false ∧ p'.finished_rank = some (g.ranks_assigned + 1) ∧
          p'.name = p.name) ∧
        (2 ≤ g.count_active_players - 1 →
          g'.ranks_assigned = g.ranks_assigned + 1 ∧
          g'.finish_order = g.finish_order ++ [(p.name, g.ranks_assigned + 1)] ∧
          g'.state = g.state) ∧
        (g.count_active_players - 1 ≤ 1 → g'.state = GState.finished)) ∧
    (∀ rs, g.required_suit = some rs → card.suit = rs →
      ∃ g', g.attempt_play_card i k = some g' ∧
        (∃ p', g'.players.get? i = some p' ∧ p'.hand = [] ∧
          p'.is_active = true ∧ p'.finished_rank = p.finished_rank) ∧
        g'.ranks_assigned = g.ranks_assigned ∧
        g'.finish_order = g.finish_order) ∧
    (∀ (g2 : Game) (j k2 : Nat) (q : Player), g2.players.get? j = some q →
      q.is_active = false → g2.attempt_play_card j k2 = some g2) := by
  have hilt : i < g.players.length := get?_some_lt hp
  have hklt : k < p.hand.length := get?_some_lt hk
  have herase : p.hand.eraseIdx k = [] := by
    apply List.length_eq_zero.mp
    rw [List.length_eraseIdx, if_pos hklt, hlen]
  refine ⟨?_, ?_, ?_⟩
  · -- leading play that empties the hand
    intro hreq hfm
    have hacc := attempt_accept_lead g i k p card hanim hp hturn hact hk hreq hfm
    refine ⟨_, hacc, ?_⟩
    simp only [Game.leadPlay, Game.next_active_index]
    rw [if_pos (show ({ p with hand := p.hand.eraseIdx k } : Player).card_count = 0 from
      by simp [Player.card_count, herase])]
    rw [finishSeat_eq _ i { p with hand := p.hand.eraseIdx k }
      (List.get?_set_eq_of_lt _ hilt)]
    rw [List.set_set]
    simp only [Game.check_game_end]
    have hget2 : (g.players.set i
        { name := p.name, hand := p.hand.eraseIdx k, is_active := false,
          finished_rank := some (g.ranks_assigned + 1),
          just_picked_up := p.just_picked_up,
          avoid_suit := p.avoid_suit }).get? i = some
        { name := p.name, hand := p.hand.eraseIdx k, is_active := false,
          finished_rank := some (g.ranks_assigned + 1),
          just_picked_up := p.just_picked_up,
          avoid_suit := p.avoid_suit } :=
      List.get?_set_eq_of_lt _ hilt
    have hdec := filter_length_set_decr g.players i p
      { name := p.name, hand := p.hand.eraseIdx k, is_active := false,
        finished_rank := some (g.ranks_assigned + 1),
        just_picked_up := p.just_picked_up,
        avoid_suit := p.avoid_suit } hp hact rfl
    have hc : Game.count_active_players g
        = (g.players.filter (fun q => q.is_active)).length := rfl
    by_cases h2 : 2 ≤ Game.count_active_players g - 1
    · -- at least two seats stay active: check_game_end is the identity
      rw [hc] at h2
      have hcond : ¬((List.filter (fun q => q.is_active)
          (g.players.set i
            { name := p.name, hand := p.hand.eraseIdx k, is_active := false,
              finished_rank := some (g.ranks_assigned + 1),
              just_picked_up := p.just_picked_up,
              avoid_suit := p.avoid_suit })).length ≤ 1) := by omega
      rw [if_neg hcond]
      simp only [clearPickupFlag]
      obtain ⟨p', hp', hhand, hactiv, hrank, hname, _, _⟩ :=
        clearPickupAt_get? _ i _ hget2
      refine ⟨⟨p', hp', ?_, ?_, ?_, ?_⟩, ?_, ?_⟩
      · rw [hhand]; exact herase
      · rw [hactiv]
      · rw [hrank]
      · rw [hname]
      · intro _
        refine ⟨?_, ?_, ?_⟩ <;> trivial
      · intro hcontra
        exfalso
        rw [hc] at hcontra
        omega
    · -- at most one other seat stays active: the game finishes
      rw [hc] at h2
      have hcond : (List.filter (fun q => q.is_active)
          (g.players.set i
            { name := p.name, hand := p.hand.eraseIdx k, is_active := false,
              finished_rank := some (g.ranks_assigned + 1),
              just_picked_up := p.just_picked_up,
              avoid_suit := p.avoid_suit })).length ≤ 1 := by omega
      rw [if_pos hcond]
      simp only [clearPickupFlag]
      obtain ⟨pm, hpm, hmh, hmn, hmj, hma, hmfalse, _⟩ :=
        assignRanksBy_get? (fun q => q.is_active && q.finished_rank.isNone)
          (g.players.set i
            { name := p.name, hand := p.hand.eraseIdx k, is_active := false,
              finished_rank := some (g.ranks_assigned + 1),
              just_picked_up := p.just_picked_up,
              avoid_suit := p.avoid_suit })
          (g.ranks_assigned + 1)
          (g.finish_order ++ [(p.name, g.ranks_assigned + 1)]) i _ hget2
      rw [hmfalse rfl] at hpm
      obtain ⟨p', hp', hhand, hactiv, hrank, hname, _, _⟩ :=
        clearPickupAt_get? _ i _ hpm
      refine ⟨⟨p', hp', ?_, ?_, ?_, ?_⟩, ?_, ?_⟩
      · rw [hhand]; exact herase
      · rw [hactiv]
      · rw [hrank]
      · rw [hname]
      · intro hcontra
        exfalso
        rw [hc] at hcontra
        omega
      · intro _
        trivial
  · -- following play that empties the hand
    intro rs hreq hsuit
    have hacc := attempt_accept_follow g i k p card rs hanim hp hturn hact hk hreq
      (fun _ => hsuit)
    refine ⟨_, hacc, ?_⟩
    simp only [Game.followPlay, Game.next_active_index]
    rw [if_neg (show ¬(((g.required_suit != some card.suit)
        && !p.has_suit rs) = true) from by simp [hreq, hsuit])]
    have hget1 : (g.players.set i { p with hand := p.hand.eraseIdx k }).get? i
        = some { p with hand := p.hand.eraseIdx k } :=
      List.get?_set_eq_of_lt _ hilt
    split
    · exact ⟨⟨{ p with hand := p.hand.eraseIdx k }, hget1, herase, hact, rfl⟩,
        rfl, rfl⟩
    · simp only [clearPickupFlag]
      obtain ⟨p', hp', hhand, hactiv, hrank, hname, _, _⟩ :=
        clearPickupAt_get? _ i _ hget1
      refine ⟨⟨p', hp', ?_, ?_, ?_⟩, ?_, ?_⟩
      · rw [hhand]; exact herase
      · rw [hactiv]; exact hact
      · rw [hrank]
      · trivial
      · trivial
  · -- inactive seats can never play
    intro g2 j k2 q hq hinact
    by_cases hanim2 : g2.animating = true
    · simp [Game.attempt_play_card, hanim2]
    · have h2 : g2.animating = false := by simpa using hanim2
      simp only [List.get?_eq_getElem?] at hq
      by_cases ht : g2.active_index = some j
      · simp [Game.attempt_play_card, h2, hq, ht, hinact]
      · simp [Game.attempt_play_card, h2, hq, ht]

/-- Witness for C3: in `gMidTrick`, seat 2 (holding no spade) plays the 9♥
on the spades trick; resolution is triggered immediately as a tochoo. -/
theorem c3_witness :
    (gMidTrick.attempt_play_card 2 0).map (fun gg => gg.resolve_after_animation)
      = some (some true) := by
  obtain ⟨g', hacc, hiff1, hiff2⟩ := c3_trick_completion gMidTrick 2 0
    (mkP "P3" [⟨9, .hearts⟩, ⟨2, .diamonds⟩]) ⟨9, .hearts⟩
    (by decide) (by decide) (by decide) (by decide) (by decide) (by decide)
    (by intro rs hrs hhs; injection hrs with h; subst h; exact absurd hhs (by decide))
    (by intro h; exact absurd h (by decide))
  rw [hacc]
  show some g'.resolve_after_animation = some (some true)
  rw [hiff1.mpr ⟨Suit.spades, by decide, by decide, by decide⟩]

/-- Witness for C5 at `gLeadLastCard`: seat 0 leads its only card and is
immediately ranked first, deactivated and recorded in the finish order. -/
theorem c5_witness :
    ∃ g', gLeadLastCard.attempt_play_card 0 0 = some g' ∧
      (g'.players.get? 0).map (fun p => (p.is_active, p.finished_rank))
        = some (false, some 1) ∧
      g'.ranks_assigned = 1 ∧ g'.finish_order = [("P1", 1)] := by
  obtain ⟨part1, -, -⟩ := c5_rank_on_empty gLeadLastCard 0 0
    (mkP "P1" [⟨9, .hearts⟩]) ⟨9, .hearts⟩ (by decide) (by decide) (by decide)
    (by decide) (by decide) (by decide)
  obtain ⟨g', hacc, ⟨p', hp', hhand, hactiv, hrank, hname⟩, hA, hC⟩ :=
    part1 (by decide) (fun h => absurd h (by decide))
  obtain ⟨hra, hfo, -⟩ := hA (by decide)
  refine ⟨g', hacc, ?_, ?_, ?_⟩
  · rw [hp']
    simp only [Option.map_some']
    rw [hactiv, hrank]
    decide
  · simpa using hra
  · simpa using hfo

/-- Flags of the acting seat after the leading branch of
`attempt_play_card`: the pickup-avoidance memory is always cleared. -/
theorem leadPlay_flags (g : Game) (i k : Nat) (p : Player) (card : Card)
    (hp : g.players.get? i = some p) :
    ∃ p', (g.leadPlay i p k card).players.get? i = some p' ∧
      p'.just_picked_up = false ∧
      p'.avoid_suit = (if p.just_picked_up then none else p.avoid_suit) := by
  have hilt : i < g.players.length := get?_some_lt hp
  have hget1 : (g.players.set i { p with hand := p.hand.eraseIdx k }).get? i
      = some { p with hand := p.hand.eraseIdx k } :=
    List.get?_set_eq_of_lt _ hilt
  simp only [Game.leadPlay, Game.next_active_index]
  split
  · -- hand emptied: finishSeat and check_game_end run before the clearing
    rw [finishSeat_eq _ i { p with hand := p.hand.eraseIdx k } hget1, List.set_set]
    simp only [Game.check_game_end]
    have hget2 : (g.players.set i
        { name := p.name, hand := p.hand.eraseIdx k, is_active := false,
          finished_rank := some (g.ranks_assigned + 1),
          just_picked_up := p.just_picked_up,
          avoid_suit := p.avoid_suit }).get? i = some
        { name := p.name, hand := p.hand.eraseIdx k, is_active := false,
          finished_rank := some (g.ranks_assigned + 1),
          just_picked_up := p.just_picked_up,
          avoid_suit := p.avoid_suit } :=
      List.get?_set_eq_of_lt _ hilt
    split
    · simp only [clearPickupFlag]
      obtain ⟨pm, hpm, _, _, hmj, hma, _, _⟩ :=
        assignRanksBy_get? (fun q => q.is_active && q.finished_rank.isNone)
          (g.players.set i
            { name := p.name, hand := p.hand.eraseIdx k, is_active := false,
              finished_rank := some (g.ranks_assigned + 1),
              just_picked_up := p.just_picked_up,
              avoid_suit := p.avoid_suit })
          (g.ranks_assigned + 1)
          (g.finish_order ++ [(p.name, g.ranks_assigned + 1)]) i _ hget2
      obtain ⟨p', hp', _, _, _, _, hjp, hAv⟩ := clearPickupAt_get? _ i _ hpm
      refine ⟨p', hp', hjp, ?_⟩
      rw [hAv, hmj, hma]
    · simp only [clearPickupFlag]
      obtain ⟨p', hp', _, _, _, _, hjp, hAv⟩ := clearPickupAt_get? _ i _ hget2
      exact ⟨p', hp', hjp, hAv⟩
  · simp only [clearPickupFlag]
    obtain ⟨p', hp', _, _, _, _, hjp, hAv⟩ := clearPickupAt_get? _ i _ hget1
    exact ⟨p', hp', hjp, hAv⟩

/-- Flags of the acting seat after the non-leading branch of
`attempt_play_card`: cleared on a tochoo and on an ordinary follow, but left
untouched by a trick-completing follow (where the clean resolution is
scheduled before the clearing code is reached). -/
theorem followPlay_flags (g : Game) (i k : Nat) (p : Player) (card : Card)
    (hr : Bool) (hp : g.players.get? i = some p)
    (hres : g.resolve_after_animation = none) :
    ∃ p', (g.followPlay i p k card hr).players.get? i = some p' ∧
      ((g.followPlay i p k card hr).resolve_after_animation = some false →
        p'.just_picked_up = p.just_picked_up ∧ p'.avoid_suit = p.avoid_suit) ∧
      ((g.followPlay i p k card hr).resolve_after_animation ≠ some false →
        p'.just_picked_up = false ∧
        p'.avoid_suit = (if p.just_picked_up then none else p.avoid_suit)) := by
  have hilt : i < g.players.length := get?_some_lt hp
  have hget1 : (g.players.set i { p with hand := p.hand.eraseIdx k }).get? i
      = some { p with hand := p.hand.eraseIdx k } :=
    List.get?_set_eq_of_lt _ hilt
  simp only [Game.followPlay]
  split
  · -- legitimate tochoo: resolve = some true, flags cleared
    simp only [clearPickupFlag]
    obtain ⟨p', hp', _, _, _, _, hjp, hAv⟩ := clearPickupAt_get? _ i _ hget1
    refine ⟨p', hp', ?_, ?_⟩
    · intro h
      exact absurd (show (some true : Option Bool) = some false from h) (by simp)
    · intro _
      exact ⟨hjp, hAv⟩
  · split
    · -- trick-completing follow: resolve = some false, flags untouched
      refine ⟨{ p with hand := p.hand.eraseIdx k }, hget1, ?_, ?_⟩
      · intro _
        exact ⟨rfl, rfl⟩
      · intro h
        exact absurd rfl h
    · -- ordinary follow: resolve stays none, flags cleared
      simp only [clearPickupFlag]
      obtain ⟨p', hp', _, _, _, _, hjp, hAv⟩ := clearPickupAt_get? _ i _ hget1
      refine ⟨p', hp', ?_, ?_⟩
      · intro h
        exact absurd (hres ▸ (show g.resolve_after_animation = some false from h))
          (by simp)
      · intro _
        exact ⟨hjp, hAv⟩

/-- C7 counterexample: in `gLastFollowFlagged` seat 2 carries pickup
memory (`justPickedUp=true`, `avoidSuit=♣`) and follows hearts with its
last card, completing the trick; after the accepted play the memory is
still set, so the claim "cleared on any accepted play" fails. -/
theorem c7_counterexample :
    ((gLastFollowFlagged.players.get? 2).map
        (fun p => (p.just_picked_up, p.avoid_suit))
      = some (true, some Suit.clubs)) ∧
    ((gLastFollowFlagged.attempt_play_card 2 0).map
        (fun gg => ((gg.players.get? 2).map
            (fun p => (p.just_picked_up, p.avoid_suit)),
          gg.resolve_after_animation))
      = some (some (true, some Suit.clubs), some false)) := by decide

/-- C7 (amended): after any accepted play the acting seat's pickup memory is
cleared (`justPickedUp=false`, `avoidSuit=None`) — except a following play
that completes the trick (`resolve_after_animation` becomes `some false`),
which returns before the clearing code and leaves both fields untouched.
The coupling hypothesis (`avoid_suit` is only set while `just_picked_up`)
holds in every reachable state because the two fields are set and cleared
together. -/
theorem c7_avoid_suit_clearing (g : Game) (i k : Nat) (p : Player) (card : Card)
    (hanim : g.animating = false) (hp : g.players.get? i = some p)
    (hturn : g.active_index = some i) (hact : p.is_active = true)
    (hk : p.hand.get? k = some card)
    (hres : g.resolve_after_animation = none)
    (hcouple : p.just_picked_up = false → p.avoid_suit = none)
    (hlegal : ∀ rs, g.required_suit = some rs → p.has_suit rs = true → card.suit = rs)
    (hlegalfm : g.required_suit = none → g.first_move = true → card.isAceOfSpades = true) :
    ∃ g' p', g.attempt_play_card i k = some g' ∧ g'.players.get? i = some p' ∧
      (g'.resolve_after_animation ≠ some false →
        p'.just_picked_up = false ∧ p'.avoid_suit = none) ∧
      (g'.resolve_after_animation = some false →
        p'.just_picked_up = p.just_picked_up ∧ p'.avoid_suit = p.avoid_suit) := by
  have havnone : (if p.just_picked_up then none else p.avoid_suit) =
      (none : Option Suit) := by
    cases hjpu : p.just_picked_up
    · rw [if_neg (by simp [hjpu])]
      exact hcouple hjpu
    · rw [if_pos (by simp [hjpu])]
  cases hreq : g.required_suit with
  | none =>
    have hacc := attempt_accept_lead g i k p card hanim hp hturn hact hk hreq
      (hlegalfm hreq)
    obtain ⟨p', hp', hjp, hAv⟩ := leadPlay_flags g i k p card hp
    refine ⟨_, p', hacc, hp', ?_, ?_⟩
    · intro _
      exact ⟨hjp, by rw [hAv, havnone]⟩
    · intro h
      rw [leadPlay_resolve, hres] at h
      exact absurd h (by simp)
  | some rs =>
    have hacc := attempt_accept_follow g i k p card rs hanim hp hturn hact hk hreq
      (hlegal rs hreq)
    obtain ⟨p', hp', hpres, hnpres⟩ :=
      followPlay_flags g i k p card (p.has_suit rs) hp hres
    refine ⟨_, p', hacc, hp', ?_, hpres⟩
    intro h
    obtain ⟨hjp, hAv⟩ := hnpres h
    exact ⟨hjp, by rw [hAv, havnone]⟩

/-- Witness for C7: the opening Ace lead in `gFirstMove` leaves seat 0 with
cleared pickup memory. -/
theorem c7_witness :
    ∃ g' p', gFirstMove.attempt_play_card 0 0 = some g' ∧
      g'.players.get? 0 = some p' ∧ p'.just_picked_up = false ∧
      p'.avoid_suit = none := by
  obtain ⟨g', p', hacc, hp', hclear, -⟩ := c7_avoid_suit_clearing gFirstMove 0 0
    (mkP "P1" [⟨14, .spades⟩, ⟨5, .hearts⟩]) ⟨14, .spades⟩
    (by decide) (by decide) (by decide) (by decide) (by decide) (by decide)
    (by intro h; rfl)
    (by
      intro rs hrs hhs
      rw [(by decide : gFirstMove.required_suit = none)] at hrs
      exact Option.noConfusion hrs)
    (fun _ _ => by decide)
  have hval : (gFirstMove.attempt_play_card 0 0).map
      (fun gg => gg.resolve_after_animation) = some none := by decide
  rw [hacc] at hval
  have hres' : g'.resolve_after_animation = none := Option.some.inj hval
  obtain ⟨hjp, hAv⟩ := hclear (by rw [hres']; simp)
  exact ⟨g', p', hacc, hp', hjp, hAv⟩

/-! ## Tochoo commit (C2) -/

theorem check_game_end_leader (g : Game) :
    g.check_game_end.leader_index = g.leader_index := by
  obtain ⟨ps, ra, fo, st, h⟩ := check_game_end_shape g
  rw [h]

theorem check_game_end_active (g : Game) :
    g.check_game_end.active_index = g.active_index := by
  obtain ⟨ps, ra, fo, st, h⟩ := check_game_end_shape g
  rw [h]

theorem resolveFinish_leader (g1 : Game) :
    (resolveFinish g1).leader_index = g1.leader_index := by
  simp only [resolveFinish]
  split <;> (dsimp only; rw [check_game_end_leader])

theorem resolveFinish_active (g1 : Game) :
    (resolveFinish g1).active_index = g1.active_index := by
  simp only [resolveFinish]
  split <;> (dsimp only; rw [check_game_end_active])

theorem resolveFinish_players_get? (g1 : Game) (i : Nat) (p : Player)
    (h : g1.players.get? i = some p) :
    ∃ p', (resolveFinish g1).players.get? i = some p' ∧
      p'.hand = p.hand ∧ p'.just_picked_up = p.just_picked_up ∧
      p'.avoid_suit = p.avoid_suit := by
  obtain ⟨pm, hpm, hmh, -, hmj, hma, -, -⟩ :=
    assignRanksBy_get? (fun q => q.is_active && q.hand.isEmpty)
      g1.players g1.ranks_assigned g1.finish_order i p h
  obtain ⟨p2, hp2, h2h, -, h2j, h2a⟩ :=
    check_game_end_players_get?
      { g1 with
          trick_cards := [],
          required_suit := none,
          players := (assignRanksBy (fun q => q.is_active && q.hand.isEmpty)
            g1.players g1.ranks_assigned g1.finish_order).1,
          ranks_assigned := (assignRanksBy (fun q => q.is_active && q.hand.isEmpty)
            g1.players g1.ranks_assigned g1.finish_order).2.1,
          finish_order := (assignRanksBy (fun q => q.is_active && q.hand.isEmpty)
            g1.players g1.ranks_assigned g1.finish_order).2.2 }
      i pm hpm
  refine ⟨p2, ?_, h2h.trans hmh, h2j.trans hmj, h2a.trans hma⟩
  simp only [resolveFinish]
  split
  · exact hp2
  · exact hp2

/-- The state produced by the pickup half of a committed tochoo: the
recipient seat `L` (holding `pr0`) picks up the trick, is flagged, and
becomes leader and seat to move. -/
def tochooState (g : Game) (L : Nat) (pr0 : Player) : Game :=
  { g with
      players := g.players.set L
        { Player.pick_up pr0 (g.trick_cards.map (fun pc => pc.2)) with
            just_picked_up := true, avoid_suit := g.last_trick_suit },
      leader_index := L,
      active_index := some L }

theorem tochooState_props (g : Game) (L : Nat) (pr0 : Player) (rs : Suit)
    (hlen : L < g.players.length) (hlast : g.last_trick_suit = some rs) :
    ∃ pr', (resolveFinish (tochooState g L pr0)).players.get? L = some pr' ∧
      pr'.hand.Perm (pr0.hand ++ g.trick_cards.map (fun pc => pc.2)) ∧
      pr'.hand.length = pr0.hand.length + g.trick_cards.length ∧
      pr'.just_picked_up = true ∧ pr'.avoid_suit = some rs := by
  obtain ⟨pr', hget, hh, hj, ha⟩ :=
    resolveFinish_players_get? (tochooState g L pr0) L
      { Player.pick_up pr0 (g.trick_cards.map (fun pc => pc.2)) with
          just_picked_up := true, avoid_suit := g.last_trick_suit }
      (by simp only [tochooState]; exact List.get?_set_eq_of_lt _ hlen)
  have hperm : pr'.hand.Perm (pr0.hand ++ g.trick_cards.map (fun pc => pc.2)) := by
    rw [hh]
    simp only [Player.pick_up, Player.sort_hand]
    exact List.perm_insertionSort _ _
  refine ⟨pr', hget, hperm, ?_, by rw [hj], by rw [ha]; exact hlast⟩
  rw [hperm.length_eq, List.length_append, List.length_map]

/-- C2: committing the deferred resolution with `tochoo_occurred = true`
(on a trick whose suit was recorded by the trigger, so `last_trick_suit`
equals the required suit) picks as recipient a seat that played a
required-suit card of maximal value among the required-suit cards played
(falling back to the leader when no played card followed suit); the
recipient's hand gains exactly the played cards as a multiset, growing by
the trick's card count; the recipient is marked `just_picked_up := true`
with `avoid_suit` the trick's suit; and the recipient becomes both
`leader_index` and `active_index`. -/
theorem c2_tochoo_commit (g : Game) (rs : Suit)
    (hrs : g.required_suit = some rs) (hlast : g.last_trick_suit = some rs)
    (hvalid : ∀ q ∈ g.trick_cards, q.1 < g.players.length)
    (hlead : g.leader_index < g.players.length) :
    ∃ r g', g.actually_resolve_trick (some true) = some g' ∧
      ((∃ q ∈ g.trick_cards, q.2.suit = rs) →
        ∃ c, (r, c) ∈ g.trick_cards ∧ c.suit = rs ∧
          ∀ q ∈ g.trick_cards, q.2.suit = rs → q.2.value ≤ c.value) ∧
      ((∀ q ∈ g.trick_cards, q.2.suit ≠ rs) → r = g.leader_index) ∧
      (∀ pr, g.players.get? r = some pr →
        ∃ pr', g'.players.get? r = some pr' ∧
          pr'.hand.Perm (pr.hand ++ g.trick_cards.map (fun pc => pc.2)) ∧
          pr'.hand.length = pr.hand.length + g.trick_cards.length ∧
          pr'.just_picked_up = true ∧ pr'.avoid_suit = some rs) ∧
      g'.leader_index = r ∧ g'.active_index = some r := by
  cases hsuited : g.trick_cards.filter (fun pc => g.required_suit == some pc.2.suit) with
  | nil =>
    cases hpr : g.players.get? g.leader_index with
    | none => exact absurd (List.get?_eq_none.mp hpr) (by omega)
    | some pr0 =>
      have hform : g.actually_resolve_trick (some true)
          = some (resolveFinish (tochooState g g.leader_index pr0)) := by
        simp only [Game.actually_resolve_trick, Option.getD, hsuited]
        rw [if_pos trivial]
        rw [hpr]
        rfl
      refine ⟨g.leader_index, _, hform, ?_, fun _ => rfl, ?_, ?_, ?_⟩
      · rintro ⟨q, hqmem, hqsuit⟩
        have hqf : q ∈ g.trick_cards.filter
            (fun pc => g.required_suit == some pc.2.suit) :=
          List.mem_filter.mpr ⟨hqmem, by simp [hrs, hqsuit]⟩
        rw [hsuited] at hqf
        exact absurd hqf (List.not_mem_nil _)
      · intro pr hpr2
        rw [hpr] at hpr2
        injection hpr2 with h2
        subst h2
        exact tochooState_props g g.leader_index pr0 rs hlead hlast
      · rw [resolveFinish_leader]; rfl
      · rw [resolveFinish_active]; rfl
  | cons x xs =>
    have hmemf : maxPair x xs ∈ g.trick_cards.filter
        (fun pc => g.required_suit == some pc.2.suit) := by
      rw [hsuited]
      rcases maxPair_mem x xs with h | h
      · rw [h]; exact List.mem_cons_self _ _
      · exact List.mem_cons_of_mem _ h
    have hmemt : maxPair x xs ∈ g.trick_cards := (List.mem_filter.mp hmemf).1
    have hmsuit : (maxPair x xs).2.suit = rs := by
      have hpred := (List.mem_filter.mp hmemf).2
      rw [hrs] at hpred
      exact (Option.some.inj (beq_iff_eq.mp hpred)).symm
    have hrlt : (maxPair x xs).1 < g.players.length := hvalid _ hmemt
    cases hpr : g.players.get? (maxPair x xs).1 with
    | none => exact absurd (List.get?_eq_none.mp hpr) (by omega)
    | some pr0 =>
      have hform : g.actually_resolve_trick (some true)
          = some (resolveFinish (tochooState g (maxPair x xs).1 pr0)) := by
        simp only [Game.actually_resolve_trick, Option.getD, hsuited]
        rw [if_pos trivial]
        rw [hpr]
        rfl
      refine ⟨(maxPair x xs).1, _, hform, ?_, ?_, ?_, ?_, ?_⟩
      · intro _
        refine ⟨(maxPair x xs).2, hmemt, hmsuit, ?_⟩
        intro q hq hqs
        have hqf : q ∈ g.trick_cards.filter
            (fun pc => g.required_suit == some pc.2.suit) :=
          List.mem_filter.mpr ⟨hq, by simp [hrs, hqs]⟩
        rw [hsuited] at hqf
        exact maxPair_ge x xs q (List.mem_cons.mp hqf)
      · intro hnone
        exact absurd hmsuit (hnone _ hmemt)
      · intro pr hpr2
        rw [hpr] at hpr2
        injection hpr2 with h2
        subst h2
        exact tochooState_props g (maxPair x xs).1 pr0 rs hrlt hlast
      · rw [resolveFinish_leader]; rfl
      · rw [resolveFinish_active]; rfl

/-- Witness for C2: committing the pending tochoo of `gTochooPending`
(seat 0's A♠ is the highest spade of the trick). -/
theorem c2_witness :
    ∃ r g', gTochooPending.actually_resolve_trick (some true) = some g' ∧
      ((∃ q ∈ gTochooPending.trick_cards, q.2.suit = Suit.spades) →
        ∃ c, (r, c) ∈ gTochooPending.trick_cards ∧ c.suit = Suit.spades ∧
          ∀ q ∈ gTochooPending.trick_cards, q.2.suit = Suit.spades →
            q.2.value ≤ c.value) ∧
      ((∀ q ∈ gTochooPending.trick_cards, q.2.suit ≠ Suit.spades) →
        r = gTochooPending.leader_index) ∧
      (∀ pr, gTochooPending.players.get? r = some pr →
        ∃ pr', g'.players.get? r = some pr' ∧
          pr'.hand.Perm (pr.hand ++ gTochooPending.trick_cards.map (fun pc => pc.2)) ∧
          pr'.hand.length = pr.hand.length + gTochooPending.trick_cards.length ∧
          pr'.just_picked_up = true ∧ pr'.avoid_suit = some Suit.spades) ∧
      g'.leader_index = r ∧ g'.active_index = some r :=
  c2_tochoo_commit gTochooPending Suit.spades (by decide) (by decide)
    (by decide) (by decide)

/-! ## CPU following policy (C8) -/

theorem pyMinIdx_mem_cons (key : Nat → Nat) (x : Nat) (xs : List Nat) :
    pyMinIdx key x xs ∈ x :: xs := by
  rcases pyMinIdx_mem key x xs with h | h
  · rw [h]; exact List.mem_cons_self _ _
  · exact List.mem_cons_of_mem _ h

theorem pyMaxIdx_mem_cons (key : Nat → Nat) (x : Nat) (xs : List Nat) :
    pyMaxIdx key x xs ∈ x :: xs := by
  rcases pyMaxIdx_mem key x xs with h | h
  · rw [h]; exact List.mem_cons_self _ _
  · exact List.mem_cons_of_mem _ h

theorem valAt_eq (hand : List Card) (j : Nat) (c : Card)
    (h : hand.get? j = some c) : valAt hand j = c.value := by
  simp only [valAt, h]

/-- Membership in the index lists the CPU policy builds by filtering
`range(len(hand))` through a predicate on the card at each index. -/
theorem range_filter_mem (hand : List Card) (q : Card → Bool) (k : Nat) :
    (k ∈ (List.range hand.length).filter (fun i =>
      match hand.get? i with
      | some c => q c
      | none => false)) ↔ ∃ c, hand.get? k = some c ∧ q c = true := by
  rw [List.mem_filter, List.mem_range]
  constructor
  · rintro ⟨hlt, hpred⟩
    cases hg : hand.get? k with
    | none =>
      simp only [hg] at hpred
      exact Bool.noConfusion hpred
    | some c =>
      simp only [hg] at hpred
      exact ⟨c, rfl, hpred⟩
  · rintro ⟨c, hg, hq⟩
    refine ⟨get?_some_lt hg, ?_⟩
    simp only [hg]
    exact hq

/-- `max(range(len(hand)), key=lambda i: hand[i].value)` picks an index
holding a card of maximal value. -/
theorem overallMax_spec (hand : List Card) (r0 : Nat) (rrest : List Nat)
    (hrg : List.range hand.length = r0 :: rrest) :
    ∃ c, hand.get? (pyMaxIdx (valAt hand) r0 rrest) = some c ∧
      ∀ k ck, hand.get? k = some ck → ck.value ≤ c.value := by
  have hjm : pyMaxIdx (valAt hand) r0 rrest ∈ List.range hand.length := by
    rw [hrg]; exact pyMaxIdx_mem_cons _ _ _
  have hjlt : pyMaxIdx (valAt hand) r0 rrest < hand.length := List.mem_range.mp hjm
  cases hg : hand.get? (pyMaxIdx (valAt hand) r0 rrest) with
  | none => exact absurd (List.get?_eq_none.mp hg) (by omega)
  | some c =>
    refine ⟨c, rfl, ?_⟩
    intro k ck hk
    have hkm : k ∈ r0 :: rrest := by
      rw [← hrg]; exact List.mem_range.mpr (get?_some_lt hk)
    have hle := pyMaxIdx_ge (valAt hand) r0 rrest k (List.mem_cons.mp hkm)
    rw [valAt_eq hand k ck hk, valAt_eq hand _ c hg] at hle
    exact hle

/-- `max(filtered_indices, key=lambda i: hand[i].value)` picks an index
whose card satisfies the filter and has maximal value among such cards. -/
theorem filterMax_spec (hand : List Card) (q : Card → Bool) (b : Nat)
    (brest : List Nat)
    (hf : (List.range hand.length).filter (fun i =>
        match hand.get? i with
        | some c => q c
        | none => false) = b :: brest) :
    ∃ c, hand.get? (pyMaxIdx (valAt hand) b brest) = some c ∧ q c = true ∧
      ∀ k ck, hand.get? k = some ck → q ck = true → ck.value ≤ c.value := by
  have hjm : pyMaxIdx (valAt hand) b brest ∈ (List.range hand.length).filter
      (fun i =>
        match hand.get? i with
        | some c => q c
        | none => false) := by
    rw [hf]; exact pyMaxIdx_mem_cons _ _ _
  obtain ⟨c, hg, hq⟩ := (range_filter_mem hand q _).mp hjm
  refine ⟨c, hg, hq, ?_⟩
  intro k ck hk hq'
  have hkm : k ∈ b :: brest := by
    rw [← hf]; exact (range_filter_mem hand q k).mpr ⟨ck, hk, hq'⟩
  have hle := pyMaxIdx_ge (valAt hand) b brest k (List.mem_cons.mp hkm)
  rw [valAt_eq hand k ck hk, valAt_eq hand _ c hg] at hle
  exact hle

/-- `min(filtered_indices, key=lambda i: hand[i].value)` picks an index
whose card satisfies the filter and has minimal value among such cards. -/
theorem filterMin_spec (hand : List Card) (q : Card → Bool) (b : Nat)
    (brest : List Nat)
    (hf : (List.range hand.length).filter (fun i =>
        match hand.get? i with
        | some c => q c
        | none => false) = b :: brest) :
    ∃ c, hand.get? (pyMinIdx (valAt hand) b brest) = some c ∧ q c = true ∧
      ∀ k ck, hand.get? k = some ck → q ck = true → c.value ≤ ck.value := by
  have hjm : pyMinIdx (valAt hand) b brest ∈ (List.range hand.length).filter
      (fun i =>
        match hand.get? i with
        | some c => q c
        | none => false) := by
    rw [hf]; exact pyMinIdx_mem_cons _ _ _
  obtain ⟨c, hg, hq⟩ := (range_filter_mem hand q _).mp hjm
  refine ⟨c, hg, hq, ?_⟩
  intro k ck hk hq'
  have hkm : k ∈ b :: brest := by
    rw [← hf]; exact (range_filter_mem hand q k).mpr ⟨ck, hk, hq'⟩
  have hle := pyMinIdx_le (valAt hand) b brest k (List.mem_cons.mp hkm)
  rw [valAt_eq hand k ck hk, valAt_eq hand _ c hg] at hle
  exact hle

/-- An active seat with a required suit may play any in-range card that
follows suit whenever the suit is held (and anything at all otherwise). -/
theorem is_card_playable_of_active (g : Game) (i k : Nat) (p : Player)
    (c : Card) (rs : Suit)
    (hp : g.players.get? i = some p) (hact : p.is_active = true)
    (hrs : g.required_suit = some rs) (hk : p.hand.get? k = some c)
    (hok : p.has_suit rs = true → c.suit = rs) :
    g.is_card_playable i k = some true := by
  simp only [Game.is_card_playable, hp, hrs, hk, hact]
  rw [if_neg (fun h => Bool.noConfusion h)]
  cases hhs : p.has_suit rs with
  | false => rw [if_neg (fun h => Bool.noConfusion h)]
  | true =>
    rw [if_pos rfl]
    rw [hok hhs]
    simp

/-- C8: CPU following policy.  With a required suit set, for an active seat
with a non-empty hand the CPU returns an in-hand index `j`: the lowest-value
required-suit card when the seat holds the suit; otherwise (forced tochoo),
with an effective avoid suit (`avoid_suit` under `just_picked_up`) and a
non-avoid card in hand, the highest-value card among non-avoid cards, and in
all remaining cases the highest-value card overall; and the returned index
satisfies `is_card_playable`. -/
theorem c8_cpu_following_policy (g : Game) (i : Nat) (p : Player) (rs : Suit)
    (av : Option Suit)
    (hp : g.players.get? i = some p) (hact : p.is_active = true)
    (hrs : g.required_suit = some rs) (hne : p.hand ≠ [])
    (hav : (if p.just_picked_up then p.avoid_suit else none) = av) :
    ∃ j c, g.cpu_choose_card_index i = some (some j) ∧
      p.hand.get? j = some c ∧
      g.is_card_playable i j = some true ∧
      (p.has_suit rs = true →
        c.suit = rs ∧
        ∀ k ck, p.hand.get? k = some ck → ck.suit = rs → c.value ≤ ck.value) ∧
      (p.has_suit rs = false →
        (∀ a, av = some a →
          ((∃ ck ∈ p.hand, ck.suit ≠ a) →
            c.suit ≠ a ∧
              ∀ k ck, p.hand.get? k = some ck → ck.suit ≠ a →
                ck.value ≤ c.value) ∧
          ((∀ ck ∈ p.hand, ck.suit = a) →
            ∀ k ck, p.hand.get? k = some ck → ck.value ≤ c.value)) ∧
        (av = none → ∀ k ck, p.hand.get? k = some ck → ck.value ≤ c.value)) := by
  cases hssi : (List.range p.hand.length).filter (fun ix =>
      match p.hand.get? ix with
      | some c => c.suit == rs
      | none => false) with
  | cons b brest =>
    obtain ⟨c, hg, hq, hmin⟩ :=
      filterMin_spec p.hand (fun c => c.suit == rs) b brest hssi
    have hhs : p.has_suit rs = true :=
      List.any_eq_true.mpr ⟨c, List.get?_mem hg, hq⟩
    refine ⟨pyMinIdx (valAt p.hand) b brest, c, ?_, hg, ?_, ?_, ?_⟩
    · simp only [Game.cpu_choose_card_index, hp, hrs]
      rw [if_neg hne, hssi]
    · exact is_card_playable_of_active g i _ p c rs hp hact hrs hg
        (fun _ => beq_iff_eq.mp hq)
    · intro _
      exact ⟨beq_iff_eq.mp hq, fun k ck hk hks =>
        hmin k ck hk (by rw [hks]; exact beq_self_eq_true rs)⟩
    · intro hcon
      rw [hhs] at hcon
      exact Bool.noConfusion hcon
  | nil =>
    have hhs : p.has_suit rs = false := by
      cases hh : p.has_suit rs with
      | false => rfl
      | true =>
        obtain ⟨c0, hc0mem, hc0q⟩ := List.any_eq_true.mp hh
        obtain ⟨k, hk⟩ := List.mem_iff_get?.mp hc0mem
        have hkm := (range_filter_mem p.hand (fun c => c.suit == rs) k).mpr
          ⟨c0, hk, hc0q⟩
        rw [hssi] at hkm
        exact absurd hkm (List.not_mem_nil _)
    have hoknone : p.has_suit rs = true → ∀ c : Card, c.suit = rs := by
      intro hcon
      rw [hhs] at hcon
      exact Bool.noConfusion hcon
    cases av with
    | none =>
      cases hrg : List.range p.hand.length with
      | nil =>
        exact absurd (List.length_eq_zero.mp (List.range_eq_nil.mp hrg)) hne
      | cons r0 rrest =>
        obtain ⟨c, hg, hmax⟩ := overallMax_spec p.hand r0 rrest hrg
        refine ⟨pyMaxIdx (valAt p.hand) r0 rrest, c, ?_, hg, ?_, ?_, ?_⟩
        · simp only [Game.cpu_choose_card_index, hp, hrs]
          rw [if_neg hne, hssi, hav, hrg]
        · exact is_card_playable_of_active g i _ p c rs hp hact hrs hg
            (fun hcon => hoknone hcon c)
        · intro hcon
          rw [hhs] at hcon
          exact Bool.noConfusion hcon
        · intro _
          exact ⟨fun a ha => Option.noConfusion ha, fun _ => hmax⟩
    | some a =>
      cases hna : (List.range p.hand.length).filter (fun ix =>
          match p.hand.get? ix with
          | some c => !(c.suit == a)
          | none => false) with
      | cons b2 brest2 =>
        obtain ⟨c, hg, hq, hmax⟩ :=
          filterMax_spec p.hand (fun c => !(c.suit == a)) b2 brest2 hna
        have hcs : c.suit ≠ a := by
          intro h
          rw [h] at hq
          simp at hq
        refine ⟨pyMaxIdx (valAt p.hand) b2 brest2, c, ?_, hg, ?_, ?_, ?_⟩
        · simp only [Game.cpu_choose_card_index, hp, hrs]
          rw [if_neg hne, hssi, hav]
          dsimp only
          rw [hna]
        · exact is_card_playable_of_active g i _ p c rs hp hact hrs hg
            (fun hcon => hoknone hcon c)
        · intro hcon
          rw [hhs] at hcon
          exact Bool.noConfusion hcon
        · intro _
          refine ⟨?_, fun h => Option.noConfusion h⟩
          intro a' ha'
          injection ha' with ha'
          subst ha'
          refine ⟨fun _ => ⟨hcs, ?_⟩, ?_⟩
          · intro k ck hk hck
            exact hmax k ck hk (by simp [hck])
          · intro hall
            exact absurd (hall c (List.get?_mem hg)) hcs
      | nil =>
        cases hrg : List.range p.hand.length with
        | nil =>
          exact absurd (List.length_eq_zero.mp (List.range_eq_nil.mp hrg)) hne
        | cons r0 rrest =>
          obtain ⟨c, hg, hmax⟩ := overallMax_spec p.hand r0 rrest hrg
          refine ⟨pyMaxIdx (valAt p.hand) r0 rrest, c, ?_, hg, ?_, ?_, ?_⟩
          · simp only [Game.cpu_choose_card_index, hp, hrs]
            rw [if_neg hne, hssi, hav]
            dsimp only
            rw [hna, hrg]
          · exact is_card_playable_of_active g i _ p c rs hp hact hrs hg
              (fun hcon => hoknone hcon c)
          · intro hcon
            rw [hhs] at hcon
            exact Bool.noConfusion hcon
          · intro _
            refine ⟨?_, fun h => Option.noConfusion h⟩
            intro a' ha'
            injection ha' with ha'
            subst ha'
            refine ⟨?_, fun _ => hmax⟩
            rintro ⟨ck, hckmem, hckne⟩
            obtain ⟨k, hk⟩ := List.mem_iff_get?.mp hckmem
            have hkm := (range_filter_mem p.hand (fun c => !(c.suit == a)) k).mpr
              ⟨ck, hk, by simp [hckne]⟩
            rw [hna] at hkm
            exact absurd hkm (List.not_mem_nil _)

/-- Witness for C8: in `gMidTrick` seat 2 holds no spade, has no pickup
memory, and must dump; the policy output is characterized accordingly. -/
theorem c8_witness :
    ∃ j c, gMidTrick.cpu_choose_card_index 2 = some (some j) ∧
      (mkP "P3" [⟨9, .hearts⟩, ⟨2, .diamonds⟩]).hand.get? j = some c ∧
      gMidTrick.is_card_playable 2 j = some true ∧
      ((mkP "P3" [⟨9, .hearts⟩, ⟨2, .diamonds⟩]).has_suit Suit.spades = true →
        c.suit = Suit.spades ∧
        ∀ k ck, (mkP "P3" [⟨9, .hearts⟩, ⟨2, .diamonds⟩]).hand.get? k = some ck →
          ck.suit = Suit.spades → c.value ≤ ck.value) ∧
      ((mkP "P3" [⟨9, .hearts⟩, ⟨2, .diamonds⟩]).has_suit Suit.spades = false →
        (∀ a, (none : Option Suit) = some a →
          ((∃ ck ∈ (mkP "P3" [⟨9, .hearts⟩, ⟨2, .diamonds⟩]).hand, ck.suit ≠ a) →
            c.suit ≠ a ∧
              ∀ k ck,
                (mkP "P3" [⟨9, .hearts⟩, ⟨2, .diamonds⟩]).hand.get? k = some ck →
                ck.suit ≠ a → ck.value ≤ c.value) ∧
          ((∀ ck ∈ (mkP "P3" [⟨9, .hearts⟩, ⟨2, .diamonds⟩]).hand, ck.suit = a) →
            ∀ k ck,
              (mkP "P3" [⟨9, .hearts⟩, ⟨2, .diamonds⟩]).hand.get? k = some ck →
              ck.value ≤ c.value)) ∧
        ((none : Option Suit) = none →
          ∀ k ck,
            (mkP "P3" [⟨9, .hearts⟩, ⟨2, .diamonds⟩]).hand.get? k = some ck →
            ck.value ≤ c.value)) :=
  c8_cpu_following_policy gMidTrick 2 (mkP "P3" [⟨9, .hearts⟩, ⟨2, .diamonds⟩])
    Suit.spades none (by decide) (by decide) (by decide) (by decide) (by decide)
